import Mathlib

/-!
Verification development for the circuit-graph validation and correction
engine of the AI-EDA backend (`app/validation/engine.py`,
`app/validation/correction.py`, `app/services/pipeline.py`).

Modelling conventions:
* Python scalars stored in a node's open `properties` mapping are modelled by
  `PropVal` (number, string, or boolean).
* Python `float` values are modelled exactly, as an unnormalised fraction
  `PyFloat` (integer numerator, positive natural denominator).  All numeric
  comparisons in the engine are far from representation boundaries, so IEEE
  rounding is abstracted away; message interpolation of a number is rendered
  by `fltStr`, an injective printing of the exact value standing in for
  Python's decimal rendering.
* Code that can raise a Python exception (`float(...)` on an unparsable
  string, `.lower()`/`.startswith` on a non-string) returns in the
  error monad `Py`; a `Py.exn` value models the exception propagating out
  of the function.
* Python dicts keyed by node id are modelled by lookup functions with the
  same last-write-wins semantics.
-/

/-- Kinds of Python exception the engine can raise. -/
inductive PyExn where
  | valueError
  | attributeError
deriving DecidableEq

/-- Result of running a piece of Python code: a value, or a raised exception. -/
inductive Py (α : Type) where
  | ok (a : α)
  | exn (e : PyExn)
deriving DecidableEq

/-- Exact model of a Python float: an unnormalised fraction.  All values
constructed by the engine or by graphs in this file keep `den` positive. -/
structure PyFloat where
  num : Int
  den : Nat
deriving DecidableEq

/-- Embed a natural number as a float value. -/
def qofNat (n : Nat) : PyFloat := ⟨n, 1⟩

/-- The float `0.0`, default for most numeric property reads. -/
def qzero : PyFloat := ⟨0, 1⟩

/-- Addition of float values (cross multiplication, no normalisation). -/
def qadd (a b : PyFloat) : PyFloat := ⟨a.num * b.den + b.num * a.den, a.den * b.den⟩

/-- Strict comparison `a < b` of float values. -/
def qlt (a b : PyFloat) : Bool := a.num * (b.den : Int) < b.num * (a.den : Int)

/-- Comparison `a ≤ b` of float values. -/
def qle (a b : PyFloat) : Bool := a.num * (b.den : Int) ≤ b.num * (a.den : Int)

/-- Injective rendering of a float value, standing in for Python's decimal
formatting inside f-string messages. -/
def fltStr (q : PyFloat) : String :=
  if q.den = 1 then toString q.num else toString q.num ++ "/" ++ toString q.den

/-- A scalar value held in a `properties` mapping: number, string or boolean. -/
inductive PropVal where
  | num (q : PyFloat)
  | str (s : String)
  | bool (b : Bool)
deriving DecidableEq

/-- A Python dict of scalar properties, as an association list (unique keys
upstream; lookup takes the first match). -/
abbrev Props := List (String × PropVal)

/-- Dict lookup `d.get(k)`. -/
def propsGet? (p : Props) (k : String) : Option PropVal :=
  (p.find? (fun kv => kv.1 == k)).map (fun kv => kv.2)

/-- Dict lookup with default, `d.get(k, dflt)`. -/
def propsGetD (p : Props) (k : String) (dflt : PropVal) : PropVal :=
  (propsGet? p k).getD dflt

/-- Lower-case a string (`str.lower()`), character by character. -/
def strLower (s : String) : String := ⟨s.data.map Char.toLower⟩

/-- Upper-case a string (`str.upper()`), character by character. -/
def strUpper (s : String) : String := ⟨s.data.map Char.toUpper⟩

/-- Whether `p` is an initial segment of `cs`. -/
def startsWithList : List Char → List Char → Bool
  | [], _ => true
  | _ :: _, [] => false
  | p :: ps, c :: cs => p == c && startsWithList ps cs

/-- Python `pre in s` substring test and `s.startswith(pre)`. -/
def strStarts (s pre : String) : Bool := startsWithList pre.data s.data

/-- Python `pat in s`: does `s` contain `pat` as a substring. -/
def strContainsSub (s pat : String) : Bool :=
  s.data.tails.any (fun t => startsWithList pat.data t)

/-- Parse a run of decimal digits, extending the accumulator; fails on any
non-digit character. -/
def digitsVal : List Char → Nat → Option Nat
  | [], acc => some acc
  | c :: cs, acc =>
      if c.isDigit then digitsVal cs (10 * acc + (c.toNat - 48)) else none

/-- Split a character list at the first occurrence of `ch`; the second
component is `none` when `ch` does not occur. -/
def splitAtChar (ch : Char) : List Char → List Char × Option (List Char)
  | [] => ([], none)
  | c :: rest =>
      if c == ch then ([], some rest)
      else
        let (a, b) := splitAtChar ch rest
        (c :: a, b)

/-- Parse an unsigned decimal mantissa `digits[.digits]`, `.digits` or
`digits.` as an exact fraction. -/
def parseMantissa? (cs : List Char) : Option PyFloat :=
  let (intPart, fracPart?) := splitAtChar '.' cs
  match fracPart? with
  | none =>
      if intPart = [] then none
      else (digitsVal intPart 0).map (fun n => qofNat n)
  | some frac =>
      if intPart = [] ∧ frac = [] then none
      else
        match digitsVal intPart 0, digitsVal frac 0 with
        | some ip, some fp => some ⟨ip * 10 ^ frac.length + fp, 10 ^ frac.length⟩
        | _, _ => none

/-- Parse an optionally signed decimal integer (exponent part). -/
def parseExpInt? : List Char → Option Int
  | '-' :: rest => if rest = [] then none else (digitsVal rest 0).map (fun n => -(n : Int))
  | '+' :: rest => if rest = [] then none else (digitsVal rest 0).map (fun n => (n : Int))
  | cs => if cs = [] then none else (digitsVal cs 0).map (fun n => (n : Int))

/-- Scale a mantissa by `10 ^ k`. -/
def applyExp (m : PyFloat) (k : Int) : PyFloat :=
  match k with
  | Int.ofNat n => ⟨m.num * 10 ^ n, m.den⟩
  | Int.negSucc n => ⟨m.num, m.den * 10 ^ (n + 1)⟩

/-- Characters Python's `float` strips around a literal. -/
def isPySpace (c : Char) : Bool := c == ' ' || c == '\t' || c == '\n' || c == '\r'

/-- Parse an unsigned float literal with optional exponent. -/
def parseUnsignedFloat? (cs : List Char) : Option PyFloat :=
  let (mant, exp?) := splitAtChar 'e' cs
  match exp? with
  | none => parseMantissa? mant
  | some e =>
      match parseMantissa? mant, parseExpInt? e with
      | some m, some k => some (applyExp m k)
      | _, _ => none

/-- Model of Python `float(s)` on a string: `none` models `ValueError`.
Python additionally accepts `inf`/`nan` spellings, which have no exact
rational counterpart and are treated as unparsable here; no theorem below
depends on string-valued numeric properties. -/
def pyParseFloat (s : String) : Option PyFloat :=
  let cs := ((s.data.dropWhile isPySpace).reverse.dropWhile isPySpace).reverse
  let cs := cs.map Char.toLower
  match cs with
  | '-' :: rest => (parseUnsignedFloat? rest).map (fun q => ⟨-q.num, q.den⟩)
  | '+' :: rest => parseUnsignedFloat? rest
  | _ => parseUnsignedFloat? cs

/-- Model of Python `float(v)` on a property value. -/
def pyFloat : PropVal → Py PyFloat
  | .num q => .ok q
  | .bool b => .ok (if b then qofNat 1 else qzero)
  | .str s =>
      match pyParseFloat s with
      | some q => .ok q
      | none => .exn .valueError

/-- Model of `v.lower()` on a property value: raises `AttributeError` unless
the value is a string. -/
def pyLowerVal : PropVal → Py String
  | .str s => .ok (strLower s)
  | _ => .exn .attributeError

/-- Model of `v.startswith(pre)` on a property value: raises `AttributeError`
unless the value is a string. -/
def pyStartsVal : PropVal → String → Py Bool
  | .str s, pre => .ok (strStarts s pre)
  | _, _ => .exn .attributeError

/-- Model of `float(props.get(k, d))` with a numeric default `d`. -/
def getFloatD (p : Props) (k : String) (d : PyFloat) : Py PyFloat :=
  match propsGet? p k with
  | none => .ok d
  | some v => pyFloat v

/-! Graph data model (`app/schemas/circuit.py`). -/
/-- One electrical component instance (`CircuitNode`). -/
structure CircuitNode where
  id : String
  type : String
  part_number : String
  properties : Props
  pins : List String
deriving DecidableEq

/-- A directed electrical connection between two pins (`CircuitEdge`). -/
structure CircuitEdge where
  id : String
  source_node : String
  source_pin : String
  target_node : String
  target_pin : String
  net_name : String
  signal_type : String
deriving DecidableEq

/-- A named voltage source (`PowerRail`). -/
structure PowerRail where
  name : String
  voltage : PyFloat
  source_node : String
  consumers : List String
deriving DecidableEq

/-- The circuit graph aggregate (`CircuitGraph`). -/
structure CircuitGraph where
  nodes : List CircuitNode
  edges : List CircuitEdge
  power_rails : List PowerRail
  ground_net : String
  power_source : Props
deriving DecidableEq

/-- Default graph value, mirroring the schema's field defaults. -/
instance : Inhabited CircuitGraph := ⟨⟨[], [], [], "GND", []⟩⟩

/-! Validation result model (`app/schemas/validation.py`). -/
/-- Issue severity (`ValidationSeverity`). -/
inductive ValidationSeverity where
  | error
  | warning
  | info
deriving DecidableEq

/-- One typed issue (`ValidationError`). -/
structure ValidationError where
  code : String
  severity : ValidationSeverity
  message : String
  node_ids : List String
  suggestion : Option String
deriving DecidableEq

/-- Overall status (`ValidationStatus`). -/
inductive ValidationStatus where
  | VALID
  | INVALID
deriving DecidableEq

/-- Aggregated validation outcome (`ValidationResult`). -/
structure ValidationResult where
  status : ValidationStatus
  errors : List ValidationError
  warnings : List ValidationError
  checks_passed : Nat
  checks_total : Nat
deriving DecidableEq

/-- Whether an issue has error severity (`severity == ERROR`). -/
def isErr (i : ValidationError) : Bool :=
  match i.severity with
  | .error => true
  | _ => false

/-! Validation engine (`app/validation/engine.py`). -/
/-- Lookup in `_node_map(graph)`: a Python dict comprehension keyed by node
id, so on duplicate ids the last node wins. -/
def nodesGet (g : CircuitGraph) (i : String) : Option CircuitNode :=
  g.nodes.reverse.find? (fun n => n.id == i)

/-- The IC node types (`IC_TYPES`). -/
def IC_TYPES : List String := ["mcu", "sensor", "regulator"]

/-- Default GPIO source current limit (`GPIO_MAX_CURRENT_MA`). -/
def GPIO_MAX_CURRENT_MA : Nat := 20

/-- Issue emitted for a rail consumer id with no matching node. -/
def mkUnknownConsumer (rail : PowerRail) (cid : String) : ValidationError :=
  ⟨"E_UNKNOWN_CONSUMER", .error,
    "Rail " ++ rail.name ++ ": consumer \x27" ++ cid ++ "\x27 not found in node list",
    [cid], some "Remove stale consumer reference"⟩

/-- Issue emitted when a consumer's rated range excludes the rail voltage. -/
def mkVoltageMismatch (rail : PowerRail) (n : CircuitNode) (vmin vmax : PyFloat) :
    ValidationError :=
  ⟨"E_VOLTAGE_MISMATCH", .error,
    n.id ++ " (" ++ n.part_number ++ ") requires " ++ fltStr vmin ++ "–" ++
      fltStr vmax ++ "V, but rail " ++ rail.name ++ " supplies " ++
      fltStr rail.voltage ++ "V",
    [n.id],
    some ("Add level shifter or select component compatible with " ++
      fltStr rail.voltage ++ "V")⟩

/-- Issues contributed by one consumer id of one rail. -/
def voltConsumerIssues (g : CircuitGraph) (rail : PowerRail) (cid : String) :
    Py (List ValidationError) :=
  match nodesGet g cid with
  | none => .ok [mkUnknownConsumer rail cid]
  | some node =>
      match getFloatD node.properties "operating_voltage_min" qzero with
      | .exn e => .exn e
      | .ok vmin =>
          match getFloatD node.properties "operating_voltage_max" ⟨55, 10⟩ with
          | .exn e => .exn e
          | .ok vmax =>
              if qle vmin rail.voltage && qle rail.voltage vmax then .ok []
              else .ok [mkVoltageMismatch rail node vmin vmax]

/-- Sequential issue collection with exception propagation: models a Python
loop appending issues, where an exception aborts the whole call. -/
def pyFlatMapM {α : Type} (f : α → Py (List ValidationError)) :
    List α → Py (List ValidationError)
  | [] => .ok []
  | a :: as =>
      match f a with
      | .exn e => .exn e
      | .ok l =>
          match pyFlatMapM f as with
          | .exn e => .exn e
          | .ok ls => .ok (l ++ ls)

/-- Check 1 (`check_voltage_compatibility`): every consumer on a power rail
operates within its rated voltage range. -/
def check_voltage_compatibility (g : CircuitGraph) : Py (List ValidationError) :=
  pyFlatMapM (fun rail => pyFlatMapM (voltConsumerIssues g rail) rail.consumers)
    g.power_rails

/-- Node ids touched by an edge on the ground net or tagged as ground
routing (the `grounded` set of check 2). -/
def groundedIds (g : CircuitGraph) : List String :=
  g.edges.flatMap (fun e =>
    if e.net_name = g.ground_net ∨ e.signal_type = "ground" then
      [e.source_node, e.target_node]
    else [])

/-- Issue emitted for an IC without a ground connection. -/
def mkMissingGround (gnd : String) (n : CircuitNode) : ValidationError :=
  ⟨"E_MISSING_GROUND", .error,
    n.id ++ " (" ++ n.part_number ++ ") has no ground connection",
    [n.id], some ("Connect " ++ n.id ++ ".GND to " ++ gnd)⟩

/-- Check 2 (`check_ground_continuity`): every IC has at least one edge on
the ground net.  Cannot raise. -/
def check_ground_continuity (g : CircuitGraph) : List ValidationError :=
  g.nodes.flatMap (fun n =>
    if n.type ∈ IC_TYPES ∧ n.id ∉ groundedIds g then [mkMissingGround g.ground_net n]
    else [])

/-- Issue emitted for a direct power-to-ground edge. -/
def mkShortCircuit (e : CircuitEdge) : ValidationError :=
  ⟨"E_SHORT_CIRCUIT", .error,
    "Short circuit: " ++ e.source_node ++ "." ++ e.source_pin ++ " → " ++
      e.target_node ++ "." ++ e.target_pin ++ " on net " ++ e.net_name,
    [e.source_node, e.target_node],
    some "Remove direct power-to-ground connection or add a load between them"⟩

/-- Check 3 (`check_short_circuits`): detect direct VCC→GND edges outside
ground routing.  Cannot raise. -/
def check_short_circuits (g : CircuitGraph) : List ValidationError :=
  g.edges.flatMap (fun e =>
    if e.signal_type = "ground" ∨ e.net_name = g.ground_net then []
    else
      let src_pin := strUpper e.source_pin
      let tgt_pin := strUpper e.target_pin
      let is_short :=
        (src_pin ∈ ["VCC", "VOUT"] ∧ tgt_pin ∈ ["GND"]) ∨
        (tgt_pin ∈ ["VCC", "VOUT"] ∧ src_pin ∈ ["GND"])
      if is_short then [mkShortCircuit e] else [])

/-- Warning for an actuator wired directly to a GPIO pin. -/
def mkGpioRisk (n target : CircuitNode) (max_ma : PyFloat) : ValidationError :=
  ⟨"W_GPIO_OVERCURRENT_RISK", .warning,
    "Actuator " ++ target.id ++ " connected directly to " ++ n.id ++
      " GPIO (max " ++ fltStr max_ma ++ "mA per pin)",
    [n.id, target.id],
    some "Add MOSFET or transistor driver between GPIO and actuator"⟩

/-- Error for a load drawing more than the GPIO limit. -/
def mkGpioOver (n target : CircuitNode) (draw_ma max_ma : PyFloat) : ValidationError :=
  ⟨"E_GPIO_OVERCURRENT", .error,
    target.id ++ " draws " ++ fltStr draw_ma ++ "mA but " ++ n.id ++
      " GPIO max is " ++ fltStr max_ma ++ "mA",
    [n.id, target.id],
    some ("Add driver circuit — GPIO can only source " ++ fltStr max_ma ++ "mA")⟩

/-- Issues contributed by one outgoing edge of one MCU node in check 4. -/
def gpioEdgeIssues (g : CircuitGraph) (n : CircuitNode) (max_ma : PyFloat)
    (e : CircuitEdge) : Py (List ValidationError) :=
  if e.source_node ≠ n.id then .ok []
  else if e.signal_type ≠ "signal" then .ok []
  else
    match nodesGet g e.target_node with
    | none => .ok []
    | some target =>
        let riskIssues :=
          if target.type = "actuator" then [mkGpioRisk n target max_ma] else []
        match getFloatD target.properties "current_draw_mA" qzero with
        | .exn ex => .exn ex
        | .ok draw_ma =>
            if qlt max_ma draw_ma then
              .ok (riskIssues ++ [mkGpioOver n target draw_ma max_ma])
            else .ok riskIssues

/-- Check 4 (`check_gpio_overcurrent`): actuators or high-draw loads wired
directly to MCU GPIO pins. -/
def check_gpio_overcurrent (g : CircuitGraph) : Py (List ValidationError) :=
  pyFlatMapM (fun n =>
    if n.type ≠ "mcu" then .ok []
    else
      match getFloatD n.properties "gpio_max_current_mA" (qofNat GPIO_MAX_CURRENT_MA) with
      | .exn ex => .exn ex
      | .ok max_ma => pyFlatMapM (gpioEdgeIssues g n max_ma) g.edges)
    g.nodes

/-- Error for a regulator whose supply is below `vout + dropout`. -/
def mkDropout (n : CircuitNode) (sv vout dropout min_required : PyFloat) :
    ValidationError :=
  ⟨"E_DROPOUT_VIOLATION", .error,
    n.id ++ ": input " ++ fltStr sv ++ "V < required " ++ fltStr min_required ++
      "V (Vout=" ++ fltStr vout ++ "V + dropout=" ++ fltStr dropout ++ "V)",
    [n.id], some "Use a lower-dropout regulator or increase input voltage"⟩

/-- Error for a regulator whose supply is below its minimum input voltage. -/
def mkVinBelowMin (n : CircuitNode) (sv vin_min : PyFloat) : ValidationError :=
  ⟨"E_VIN_BELOW_MIN", .error,
    n.id ++ ": input " ++ fltStr sv ++ "V below minimum Vin=" ++ fltStr vin_min ++ "V",
    [n.id], some ("Ensure input voltage ≥ " ++ fltStr vin_min ++ "V")⟩

/-- Issues contributed by one node in check 5. -/
def regulatorIssues (sv : PyFloat) (n : CircuitNode) : Py (List ValidationError) :=
  if n.type ≠ "regulator" then .ok []
  else
    match getFloatD n.properties "vout" qzero with
    | .exn e => .exn e
    | .ok vout =>
        match getFloatD n.properties "dropout_v" qzero with
        | .exn e => .exn e
        | .ok dropout =>
            match getFloatD n.properties "vin_min" qzero with
            | .exn e => .exn e
            | .ok vin_min =>
                let min_required := qadd vout dropout
                .ok
                  ((if qlt qzero sv && qlt sv min_required then
                      [mkDropout n sv vout dropout min_required]
                    else []) ++
                   (if qlt qzero sv && qlt qzero vin_min && qlt sv vin_min then
                      [mkVinBelowMin n sv vin_min]
                    else []))

/-- Check 5 (`check_regulator_dropout`): supply must exceed `vout + dropout`
and must not fall below `vin_min`; `source_v` is read once up front. -/
def check_regulator_dropout (g : CircuitGraph) : Py (List ValidationError) :=
  match getFloatD g.power_source "voltage" qzero with
  | .exn e => .exn e
  | .ok sv => pyFlatMapM (regulatorIssues sv) g.nodes

/-- IC node ids adjacent to the decoupling capacitor with id `capId`.  In the
source this is the `covered` set stored in `cap_coverage`; it depends only on
the capacitor's id, so the dict's last-write-wins overwrite on duplicate ids
and the union over its values reduce to concatenating these lists. -/
def capCovered (g : CircuitGraph) (capId : String) : List String :=
  g.edges.flatMap (fun e =>
    let peer? :=
      if e.source_node = capId then nodesGet g e.target_node
      else if e.target_node = capId then nodesGet g e.source_node
      else none
    match peer? with
    | some p => if p.type ∈ IC_TYPES then [p.id] else []
    | none => [])

/-- Whether a node is a decoupling capacitor: passive, with "decoupling"
contained in its lower-cased `purpose` (raising on non-string purpose). -/
def isDecouplingCap (n : CircuitNode) : Py Bool :=
  if n.type = "passive" then
    match pyLowerVal (propsGetD n.properties "purpose" (.str "")) with
    | .exn e => .exn e
    | .ok p => .ok (strContainsSub p "decoupling")
  else .ok false

/-- Fold over nodes collecting decoupling coverage, propagating exceptions. -/
def coveredFold (g : CircuitGraph) : List CircuitNode → Py (List String)
  | [] => .ok []
  | n :: ns =>
      match isDecouplingCap n with
      | .exn e => .exn e
      | .ok b =>
          match coveredFold g ns with
          | .exn e => .exn e
          | .ok rest => .ok ((if b then capCovered g n.id else []) ++ rest)

/-- Union of IC ids covered by some decoupling capacitor (`all_covered`). -/
def allCovered (g : CircuitGraph) : Py (List String) :=
  coveredFold g g.nodes

/-- The aggregated decoupling warning listing all uncovered IC ids. -/
def mkMissingDecoupling (uncovered : List String) : ValidationError :=
  ⟨"W_MISSING_DECOUPLING", .warning,
    toString uncovered.length ++ " IC(s) without decoupling capacitor: " ++
      String.intercalate ", " uncovered,
    uncovered,
    some "Add 100nF (0.1µF) ceramic capacitor between each IC\x27s VCC and GND pins"⟩

/-- Check 6 (`check_decoupling_caps`): per-IC decoupling coverage. -/
def check_decoupling_caps (g : CircuitGraph) : Py (List ValidationError) :=
  match allCovered g with
  | .exn e => .exn e
  | .ok cov =>
      let uncovered :=
        (g.nodes.filter (fun n => decide (n.type ∈ IC_TYPES ∧ n.id ∉ cov))).map
          (fun n => n.id)
      .ok (if uncovered = [] then [] else [mkMissingDecoupling uncovered])

/-- Whether an edge indicates I2C usage (net name starts with "I2C", or an
endpoint pin is SDA/SCL). -/
def isI2CEdge (e : CircuitEdge) : Bool :=
  strStarts (strUpper e.net_name) "I2C" ||
  strUpper e.source_pin ∈ ["SDA", "SCL"] ||
  strUpper e.target_pin ∈ ["SDA", "SCL"]

/-- Contribution of one node to the SDA/SCL pull-up flags of check 7. -/
def nodePullupFlags (g : CircuitGraph) (n : CircuitNode) : Py (Bool × Bool) :=
  if n.type ≠ "passive" then .ok (false, false)
  else
    match pyLowerVal (propsGetD n.properties "purpose" (.str "")) with
    | .exn e => .exn e
    | .ok purpose =>
        if ¬(strContainsSub purpose "pull-up" ∨ strContainsSub purpose "pullup") then
          .ok (false, false)
        else
          let connected_pins := g.edges.flatMap (fun e =>
            if e.source_node = n.id then [strUpper e.target_pin]
            else if e.target_node = n.id then [strUpper e.source_pin]
            else [])
          .ok ("SDA" ∈ connected_pins ∨ strContainsSub purpose "sda",
               "SCL" ∈ connected_pins ∨ strContainsSub purpose "scl")

/-- Fold of `nodePullupFlags` over all nodes. -/
def pullupFlagsFold (g : CircuitGraph) : List CircuitNode → Py (Bool × Bool)
  | [] => .ok (false, false)
  | n :: ns =>
      match nodePullupFlags g n with
      | .exn e => .exn e
      | .ok (a, b) =>
          match pullupFlagsFold g ns with
          | .exn e => .exn e
          | .ok (c, d) => .ok (a || c, b || d)

/-- Warning for a missing I2C pull-up on one line. -/
def mkMissingPullup (line : String) : ValidationError :=
  ⟨"W_MISSING_I2C_PULLUP_" ++ line, .warning,
    "I2C " ++ line ++ " line has no pull-up resistor",
    [], some ("Add 4.7kΩ pull-up resistor on " ++ line ++ " to VCC")⟩

/-- Check 7 (`check_pull_up_resistors`): I2C buses need SDA and SCL
pull-ups. -/
def check_pull_up_resistors (g : CircuitGraph) : Py (List ValidationError) :=
  if ¬ g.edges.any isI2CEdge then .ok []
  else
    match pullupFlagsFold g g.nodes with
    | .exn e => .exn e
    | .ok (has_sda, has_scl) =>
        .ok ((if ¬has_sda then [mkMissingPullup "SDA"] else []) ++
             (if ¬has_scl then [mkMissingPullup "SCL"] else []))

/-! Main validator (`validate_circuit` and the `ALL_CHECKS` registry). -/
/-- A check function, as stored in the registry. -/
abbrev Check := CircuitGraph → Py (List ValidationError)

/-- The registry of all checks, in engine order (`ALL_CHECKS`). Checks 2 and 3
cannot raise and are wrapped into the common fallible signature. -/
def ALL_CHECKS : List Check :=
  [check_voltage_compatibility,
   fun g => .ok (check_ground_continuity g),
   fun g => .ok (check_short_circuits g),
   check_gpio_overcurrent,
   check_regulator_dropout,
   check_decoupling_caps,
   check_pull_up_resistors]

/-- The aggregation loop of `validate_circuit`: run each check in order,
partition its issues into errors and non-errors, and count a check as passed
iff it produced no error. Returns `(all_errors, all_warnings, checks_passed)`. -/
def runChecksAcc (g : CircuitGraph) : List Check →
    Py (List ValidationError × List ValidationError × Nat)
  | [] => .ok ([], [], 0)
  | c :: cs =>
      match c g with
      | .exn e => .exn e
      | .ok issues =>
          let errs := issues.filter isErr
          let warns := issues.filter (fun i => !(isErr i))
          match runChecksAcc g cs with
          | .exn e => .exn e
          | .ok (es, ws, p) =>
              .ok (errs ++ es, warns ++ ws, (if errs = [] then 1 else 0) + p)

/-- The list of raw outputs of the run checks, in order; used to state
properties of the aggregation.  `Py.ok outs` exactly when no check raised. -/
def runAll (g : CircuitGraph) : List Check → Py (List (List ValidationError))
  | [] => .ok []
  | c :: cs =>
      match c g with
      | .exn e => .exn e
      | .ok l =>
          match runAll g cs with
          | .exn e => .exn e
          | .ok ls => .ok (l :: ls)

/-- `validate_circuit(graph, checks=None)`: run all (or the selected subset
of) checks; only the value `None` is replaced by `ALL_CHECKS`. -/
def validate_circuit (g : CircuitGraph) (checks : Option (List Check)) :
    Py ValidationResult :=
  let check_fns := match checks with | some cs => cs | none => ALL_CHECKS
  match runChecksAcc g check_fns with
  | .exn e => .exn e
  | .ok (all_errors, all_warnings, checks_passed) =>
      .ok ⟨if all_errors = [] then .VALID else .INVALID,
           all_errors, all_warnings, checks_passed, check_fns.length⟩

/-! Correction engine (`app/validation/correction.py`). -/
/-- Result of a correction pass (`CorrectionResult`). -/
structure CorrectionResult where
  corrected_graph : CircuitGraph
  corrections : List String
deriving DecidableEq

/-- The ground-fix edge synthesized for one ungrounded node id. -/
def gndFixEdge (nid : String) : CircuitEdge :=
  ⟨"E_FIX_GND_" ++ nid, nid, "GND", "GND", "GND", "GND", "power"⟩

/-- Loop body of `_fix_missing_ground` over the issue's node ids. -/
def fixGroundAux (g : CircuitGraph) : List String → CircuitGraph × List String
  | [] => (g, [])
  | nid :: rest =>
      let g1 := { g with edges := g.edges ++ [gndFixEdge nid] }
      let (g2, cs) := fixGroundAux g1 rest
      (g2, ("Added ground connection for " ++ nid) :: cs)

/-- Fixer for `E_MISSING_GROUND` (`_fix_missing_ground`): add one hardcoded
edge to net "GND" per affected node id.  Cannot raise. -/
def _fix_missing_ground (g : CircuitGraph) (error : ValidationError) :
    CircuitGraph × List String :=
  fixGroundAux g error.node_ids

/-- The decoupling capacitor node synthesized by `_fix_missing_decoupling`. -/
def fixCapNode (capId : String) : CircuitNode :=
  ⟨capId, "passive", "GRM188R71C104KA01D",
    [("value", .str "100nF"), ("purpose", .str "decoupling capacitor")],
    ["P1", "P2"]⟩

/-- The rail-to-capacitor edge synthesized by `_fix_missing_decoupling`. -/
def fixCapVccEdge (capId : String) : CircuitEdge :=
  ⟨"E_FIX_CAP_" ++ capId ++ "_VCC", "3V3", "P", capId, "P1", "3V3", "power"⟩

/-- The capacitor-to-ground edge synthesized by `_fix_missing_decoupling`. -/
def fixCapGndEdge (capId : String) : CircuitEdge :=
  ⟨"E_FIX_CAP_" ++ capId ++ "_GND", capId, "P2", "GND", "GND", "GND", "power"⟩

/-- Count of passive nodes whose `purpose` starts with "decoupling"
(case-sensitive), used to seed the synthesized capacitor ids. -/
def countExistingCaps : List CircuitNode → Py Nat
  | [] => .ok 0
  | n :: ns =>
      if n.type = "passive" then
        match pyStartsVal (propsGetD n.properties "purpose" (.str "")) "decoupling" with
        | .exn e => .exn e
        | .ok b =>
            match countExistingCaps ns with
            | .exn e => .exn e
            | .ok k => .ok ((if b then 1 else 0) + k)
      else
        match countExistingCaps ns with
        | .exn e => .exn e
        | .ok k => .ok k

/-- Loop body of `_fix_missing_decoupling` over `enumerate(error.node_ids)`:
`ec` is the pre-computed existing-caps count and `i` the enumeration index. -/
def fixDecouplingAux (ec : Nat) : Nat → CircuitGraph → List String →
    CircuitGraph × List String
  | _, g, [] => (g, [])
  | i, g, nid :: rest =>
      let capId := "C_FIX_" ++ toString (ec + i + 1)
      let g1 := { g with
        nodes := g.nodes ++ [fixCapNode capId],
        edges := g.edges ++ [fixCapVccEdge capId, fixCapGndEdge capId] }
      let (g2, cs) := fixDecouplingAux ec (i + 1) g1 rest
      (g2, ("Added 100nF decoupling capacitor " ++ capId ++ " for " ++ nid) :: cs)

/-- Fixer for `W_MISSING_DECOUPLING` (`_fix_missing_decoupling`): one new
100 nF capacitor per listed id, wired to hardcoded "3V3" and "GND" nodes
(not to the listed IC). Raises if some passive node's `purpose` is not a
string. -/
def _fix_missing_decoupling (g : CircuitGraph) (error : ValidationError) :
    Py (CircuitGraph × List String) :=
  match countExistingCaps g.nodes with
  | .exn e => .exn e
  | .ok ec => .ok (fixDecouplingAux ec 0 g error.node_ids)

/-- The pull-up resistor node synthesized by `_fix_missing_pullups`. -/
def fixPullupNode (line : String) : CircuitNode :=
  ⟨"R_FIX_PU_" ++ line, "passive", "RC0402FR-074K7L",
    [("value", .str "4.7kΩ"), ("purpose", .str ("I2C pull-up (" ++ line ++ ")"))],
    ["P1", "P2"]⟩

/-- The rail-to-resistor edge synthesized by `_fix_missing_pullups`. -/
def fixPullupVccEdge (line : String) : CircuitEdge :=
  ⟨"E_FIX_PU_" ++ line ++ "_VCC", "3V3", "P", "R_FIX_PU_" ++ line, "P1", "3V3",
    "power"⟩

/-- The resistor-to-signal edge synthesized by `_fix_missing_pullups`. -/
def fixPullupSigEdge (line : String) : CircuitEdge :=
  ⟨"E_FIX_PU_" ++ line ++ "_SIG", "R_FIX_PU_" ++ line, "P2", "U1", line,
    "I2C_" ++ line, "signal"⟩

/-- Loop body of `_fix_missing_pullups` over the lines SDA and SCL. -/
def fixPullupsAux (g : CircuitGraph) : List String → CircuitGraph × List String
  | [] => (g, [])
  | line :: rest =>
      let g1 := { g with
        nodes := g.nodes ++ [fixPullupNode line],
        edges := g.edges ++ [fixPullupVccEdge line, fixPullupSigEdge line] }
      let (g2, cs) := fixPullupsAux g1 rest
      (g2, ("Added 4.7kΩ pull-up on I2C " ++ line) :: cs)

/-- Fixer registered under `W_MISSING_PULLUP` (`_fix_missing_pullups`): one
fixed-id 4.7 kΩ resistor per line, wired to hardcoded "3V3" and "U1" nodes.
Cannot raise. -/
def _fix_missing_pullups (g : CircuitGraph) (_error : ValidationError) :
    CircuitGraph × List String :=
  fixPullupsAux g ["SDA", "SCL"]

/-- A fixer as stored in the registry. -/
abbrev Fixer := CircuitGraph → ValidationError → Py (CircuitGraph × List String)

/-- The fixer registry (`FIXERS`): exactly three issue codes are
registered. -/
def FIXERS : List (String × Fixer) :=
  [("E_MISSING_GROUND", fun g e => .ok (_fix_missing_ground g e)),
   ("W_MISSING_DECOUPLING", _fix_missing_decoupling),
   ("W_MISSING_PULLUP", fun g e => .ok (_fix_missing_pullups g e))]

/-- `FIXERS.get(code)`. -/
def lookupFixer (code : String) : Option Fixer :=
  (FIXERS.find? (fun p => p.1 == code)).map (fun p => p.2)

/-- One step of `correct_circuit`'s loop over issues: issues without a
registered fixer are silently skipped; an applied fixer's corrections are
appended to the log. -/
def fixStep (st : CircuitGraph × List String) (issue : ValidationError) :
    Py (CircuitGraph × List String) :=
  match lookupFixer issue.code with
  | none => .ok st
  | some f =>
      match f st.1 issue with
      | .exn e => .exn e
      | .ok (g1, cs) => .ok (g1, st.2 ++ cs)

/-- Fold of `fixStep` over a list of issues, propagating exceptions. -/
def fixFold (st : CircuitGraph × List String) :
    List ValidationError → Py (CircuitGraph × List String)
  | [] => .ok st
  | issue :: rest =>
      match fixStep st issue with
      | .exn e => .exn e
      | .ok st1 => fixFold st1 rest

/-- `correct_circuit(graph, validation)`: deep-copy the graph, then apply the
registered fixer (if any) of every issue in `errors + warnings`, in order.
The deep copy means all mutation happens on an independent value; the
caller's graph is untouched (made explicit by `correct_circuit_heap`). -/
def correct_circuit (g : CircuitGraph) (validation : ValidationResult) :
    Py CorrectionResult :=
  match fixFold (g, []) (validation.errors ++ validation.warnings) with
  | .exn e => .exn e
  | .ok (cg, cs) => .ok ⟨cg, cs⟩

/-! Heap model of `correct_circuit`'s deep-copy discipline.  Python objects
live in a heap; the caller passes a reference to its graph.  `deepcopy`
allocates a fresh cell holding a copy of the referenced value and all
fixer mutations write to that fresh cell.  A heap is a list of graph
values and a reference is an index into it. -/
/-- Fold of the fixers over the issues, mutating the heap cell `w` in
place. -/
def heapFixFold (w : Nat) : List CircuitGraph → List String →
    List ValidationError → Py (List CircuitGraph × List String)
  | store, acc, [] => .ok (store, acc)
  | store, acc, issue :: rest =>
      match lookupFixer issue.code with
      | none => heapFixFold w store acc rest
      | some f =>
          match f (store.getD w default) issue with
          | .exn e => .exn e
          | .ok (g1, cs) => heapFixFold w (store.set w g1) (acc ++ cs) rest

/-- `correct_circuit` acting on a heap: `r` is the caller's reference to the
input graph; the result names the final heap, the reference holding
`corrected_graph`, and the corrections log. -/
def correct_circuit_heap (store : List CircuitGraph) (r : Nat)
    (validation : ValidationResult) : Py (List CircuitGraph × Nat × List String) :=
  let g := store.getD r default
  let w := store.length
  match heapFixFold w (store ++ [g]) [] (validation.errors ++ validation.warnings) with
  | .exn e => .exn e
  | .ok (s1, cs) => .ok (s1, w, cs)

/-! Correction loop of the pipeline (`app/services/pipeline.py`,
`run_pipeline` lines 57–74).  The loop is embedded parametrically in the
validate and correct operations it composes; `run_pipeline` instantiates
them with `validate_circuit(·)` and `correct_circuit`. -/
/-- The iteration budget (`MAX_CORRECTION_ITERATIONS`). -/
def MAX_CORRECTION_ITERATIONS : Nat := 3

/-- Result of the validate-and-correct loop: the final working graph, its
validation, the concatenated corrections log, and the iteration counter. -/
structure LoopResult where
  circuit : CircuitGraph
  validation : ValidationResult
  corrections_applied : List String
  iterations : Nat
deriving DecidableEq

/-- The `for i in range(MAX_CORRECTION_ITERATIONS) ... else` loop: validate;
on VALID break; otherwise correct, replace the working graph and extend the
log; when the budget is exhausted, the `else` clause re-validates the last
graph. -/
def correctionLoopGo (validate : CircuitGraph → ValidationResult)
    (correct : CircuitGraph → ValidationResult → CorrectionResult) :
    Nat → CircuitGraph → List String → Nat → LoopResult
  | 0, circuit, all_corrections, iterations =>
      ⟨circuit, validate circuit, all_corrections, iterations⟩
  | n + 1, circuit, all_corrections, iterations =>
      let validation := validate circuit
      if validation.status = .VALID then
        ⟨circuit, validation, all_corrections, iterations + 1⟩
      else
        let result := correct circuit validation
        correctionLoopGo validate correct n result.corrected_graph
          (all_corrections ++ result.corrections) (iterations + 1)

/-- The validate-and-correct section of `run_pipeline`, starting from the
generated circuit. -/
def run_pipeline_loop (validate : CircuitGraph → ValidationResult)
    (correct : CircuitGraph → ValidationResult → CorrectionResult)
    (circuit : CircuitGraph) : LoopResult :=
  correctionLoopGo validate correct MAX_CORRECTION_ITERATIONS circuit [] 0

/-! Projections used to state concrete evaluation results of fallible
calls. -/
/-- Project the issue list out of a check result (empty on exception). -/
def pyListD : Py (List ValidationError) → List ValidationError
  | .ok l => l
  | .exn _ => []

/-- Project a validation result (inert placeholder on exception). -/
def pyResD : Py ValidationResult → ValidationResult
  | .ok r => r
  | .exn _ => ⟨.INVALID, [], [], 0, 0⟩

/-- Project a correction result (inert placeholder on exception). -/
def pyCorrD : Py CorrectionResult → CorrectionResult
  | .ok r => r
  | .exn _ => ⟨default, []⟩

/-! Claim C6: short-circuit detection, edge by edge. -/
/-- The claim's per-edge short condition: the edge is not on the ground net,
is not tagged as ground routing, and (case-insensitively) bridges a
VCC/VOUT pin to a GND pin in either direction. -/
def shortEdgeSpec (gnd : String) (e : CircuitEdge) : Prop :=
  e.net_name ≠ gnd ∧ e.signal_type ≠ "ground" ∧
  ((strUpper e.source_pin ∈ (["VCC", "VOUT"] : List String) ∧
      strUpper e.target_pin = "GND") ∨
   (strUpper e.target_pin ∈ (["VCC", "VOUT"] : List String) ∧
      strUpper e.source_pin = "GND"))

instance shortEdgeSpecDecidable (gnd : String) (e : CircuitEdge) :
    Decidable (shortEdgeSpec gnd e) := by
  unfold shortEdgeSpec
  infer_instance

/-! Concrete inputs used by counterexamples and witnesses. -/
/-- A bare MCU node with no properties and no connections. -/
def cexMcu : CircuitNode := ⟨"U1", "mcu", "ESP32", [], ["VCC", "GND"]⟩

/-- A graph whose ground net is named "AGND" rather than "GND". -/
def cexAgndGraph : CircuitGraph := ⟨[cexMcu], [], [], "AGND", []⟩

/-- Engine validation of `cexAgndGraph`. -/
def cexAgndVal : ValidationResult := pyResD (validate_circuit cexAgndGraph none)

/-- Engine correction of `cexAgndGraph`. -/
def cexAgndCorr : CorrectionResult :=
  pyCorrD (correct_circuit cexAgndGraph cexAgndVal)

/-- A grounded single-MCU graph with the default ground net. -/
def cexGndGraph : CircuitGraph :=
  ⟨[cexMcu], [⟨"e1", "U1", "GND", "U1", "GND", "GND", "ground"⟩], [], "GND", []⟩

/-- Engine validation of `cexGndGraph`. -/
def cexGndVal : ValidationResult := pyResD (validate_circuit cexGndGraph none)

/-- Engine correction of `cexGndGraph`. -/
def cexGndCorr : CorrectionResult := pyCorrD (correct_circuit cexGndGraph cexGndVal)

/-! Claim C3: code bug.  The engine emits the SDA/SCL-specific pull-up
warning codes, but the fixer registry only maps "W_MISSING_PULLUP", a code
no check ever produces, so `correct_circuit` never invokes the pull-up
fixer for the issues that actually occur. -/
/-- An MCU covered by a decoupling capacitor and grounded, with one I2C SDA
edge and no pull-up resistors. -/
def c3Mcu : CircuitNode := ⟨"U1", "mcu", "ESP32", [], ["VCC", "GND", "SDA", "SCL"]⟩

/-- The decoupling capacitor of `c3Graph`. -/
def c3Cap : CircuitNode :=
  ⟨"C1", "passive", "C0805", [("purpose", .str "decoupling capacitor")],
    ["P1", "P2"]⟩

/-- A graph whose only issues are the two SDA/SCL pull-up warnings. -/
def c3Graph : CircuitGraph :=
  ⟨[c3Mcu, c3Cap],
   [⟨"eg", "U1", "GND", "U1", "GND", "GND", "ground"⟩,
    ⟨"ec", "C1", "P1", "U1", "VCC", "VCC", "power"⟩,
    ⟨"es", "U1", "SDA", "C1", "P2", "I2C_SDA", "signal"⟩],
   [], "GND", []⟩

/-- Engine validation of `c3Graph`. -/
def c3Val : ValidationResult := pyResD (validate_circuit c3Graph none)

/-! Claim C5: corrected.  Both regulator emissions are guarded by
`source_v > 0`, and the `E_VIN_BELOW_MIN` emission additionally by
`vin_min > 0`; with an absent (hence zero) supply voltage nothing fires,
contrary to the claim's "including absent or zero" reading. -/
/-- A regulator requiring 4.4 V of supply with `vin_min` 4.5 V. -/
def c5Reg : CircuitNode :=
  ⟨"REG1", "regulator", "MCP1700",
    [("vout", .num ⟨33, 10⟩), ("dropout_v", .num ⟨11, 10⟩),
     ("vin_min", .num ⟨45, 10⟩)],
    ["VIN", "GND", "VOUT"]⟩

/-- A graph with that regulator and no `voltage` key in `power_source`. -/
def c5Graph : CircuitGraph := ⟨[c5Reg], [], [], "GND", []⟩

/-! Claim C7: corrected.  A structurally well-typed graph may carry a
string in a numerically-read property; `float(...)` then raises, so the
check (and `validate_circuit`) does raise. -/
/-- A sensor whose `operating_voltage_min` is the string "abc". -/
def c7BadNode : CircuitNode :=
  ⟨"S1", "sensor", "BME280", [("operating_voltage_min", .str "abc")],
    ["VCC", "GND"]⟩

/-- A graph feeding that sensor from a rail, making the voltage check read
the string property. -/
def c7BadGraph : CircuitGraph :=
  ⟨[c7BadNode], [], [⟨"VCC", ⟨33, 10⟩, "REG1", ["S1"]⟩], "GND", []⟩

/-! Claim C8: code bug.  Synthesized decoupling-capacitor ids are derived
only from the count of existing decoupling-purpose passives, not checked
against all existing ids, so they can collide with a pre-existing node
id. -/
/-- A pre-existing MCU node unluckily named like a synthesized capacitor. -/
def c8Mcu2 : CircuitNode := ⟨"C_FIX_1", "mcu", "ATTINY85", [], ["VCC", "GND"]⟩

/-- A graph with two grounded MCUs, one named "C_FIX_1", and no decoupling
capacitors. -/
def c8Graph : CircuitGraph :=
  ⟨[cexMcu, c8Mcu2],
   [⟨"eg", "U1", "GND", "C_FIX_1", "GND", "GND", "ground"⟩],
   [], "GND", []⟩

/-- Engine validation of `c8Graph`. -/
def c8Val : ValidationResult := pyResD (validate_circuit c8Graph none)

/-- Engine correction of `c8Graph`. -/
def c8Corr : CorrectionResult := pyCorrD (correct_circuit c8Graph c8Val)

/-- Scenario C graph: the regulator of `c5Reg` on a 3.7 V supply. -/
def c5wGraph : CircuitGraph :=
  ⟨[c5Reg], [], [], "GND", [("voltage", .num ⟨37, 10⟩)]⟩

/-- The issue list the engine produces on `c5wGraph`. -/
def c5wList : List ValidationError := pyListD (check_regulator_dropout c5wGraph)

/-! Claim C7 amended machinery: a decidable property-typing discipline under
which no check can raise. -/
/-- A property entry is check-safe when the keys the checks read as strings
(`purpose`) hold strings and every other key holds a number or boolean. -/
def safeVal (kv : String × PropVal) : Bool :=
  if kv.1 == "purpose" then
    match kv.2 with
    | .str _ => true
    | _ => false
  else
    match kv.2 with
    | .str _ => false
    | _ => true

/-- All entries of a property mapping are check-safe. -/
def checkSafeProps (p : Props) : Prop := ∀ kv ∈ p, safeVal kv = true

instance checkSafePropsDecidable (p : Props) : Decidable (checkSafeProps p) := by
  unfold checkSafeProps
  infer_instance

/-- A check-safe graph with a dangling rail consumer reference. -/
def c7wGraph : CircuitGraph :=
  ⟨[⟨"S1", "sensor", "BME280",
      [("operating_voltage_min", .num ⟨18, 10⟩), ("purpose", .str "sensing")],
      ["VCC", "GND"]⟩],
   [], [⟨"VCC", ⟨33, 10⟩, "REG1", ["S1", "GHOST"]⟩], "GND", []⟩

/-- The rail of `c7wGraph`. -/
def c7wRail : PowerRail := ⟨"VCC", ⟨33, 10⟩, "REG1", ["S1", "GHOST"]⟩

/-! Claim C2 amended machinery: what the correction fold does preserve. -/
/-- The corrected graph only extends the working graph: every fixer appends
nodes and edges and leaves `ground_net` (and the rest) unchanged. -/
def graphExtends (g g2 : CircuitGraph) : Prop :=
  (∃ ns, g2.nodes = g.nodes ++ ns) ∧ (∃ es, g2.edges = g.edges ++ es) ∧
  g2.ground_net = g.ground_net

/-- A single ungrounded MCU on the default "GND" ground net. -/
def c2wGraph : CircuitGraph := ⟨[cexMcu], [], [], "GND", []⟩

/-- Engine validation of `c2wGraph`. -/
def c2wVal : ValidationResult := pyResD (validate_circuit c2wGraph none)

/-- Engine correction of `c2wGraph`. -/
def c2wCorr : CorrectionResult := pyCorrD (correct_circuit c2wGraph c2wVal)

/-- A one-check subset used to witness the validator aggregation. -/
def c1wChecks : List Check := [fun g => .ok (check_ground_continuity g)]

/-- The final heap of the heap-level correction of `c2wGraph`. -/
def c9heap : List CircuitGraph :=
  match correct_circuit_heap [c2wGraph] 0 c2wVal with
  | .ok (s, _, _) => s
  | .exn _ => []

/-- The corrections log of the heap-level correction of `c2wGraph`. -/
def c9cs : List String :=
  match correct_circuit_heap [c2wGraph] 0 c2wVal with
  | .ok (_, _, c) => c
  | .exn _ => []

/-! Generic lemmas about the exception-propagating folds. -/
/-- Everything produced by one successful element of a `pyFlatMapM` run is in
the concatenated output. -/
theorem pyFlatMapM_mem {α : Type} (f : α → Py (List ValidationError)) :
    ∀ (l : List α) (out : List ValidationError),
      pyFlatMapM f l = .ok out → ∀ a ∈ l, ∀ la, f a = .ok la →
      ∀ x ∈ la, x ∈ out := by
  intro l
  induction l with
  | nil => intro out _ a ha; exact absurd ha (List.not_mem_nil a)
  | cons b t ih =>
      intro out hout a ha la hfa x hx
      unfold pyFlatMapM at hout
      cases hfb : f b with
      | exn e => rw [hfb] at hout; exact absurd hout (by simp)
      | ok lb =>
          rw [hfb] at hout
          cases hrest : pyFlatMapM f t with
          | exn e => rw [hrest] at hout; exact absurd hout (by simp)
          | ok ls =>
              rw [hrest] at hout
              have hout2 : lb ++ ls = out := by
                simpa using hout
              rcases List.mem_cons.mp ha with h | h
              · subst h
                rw [hfb] at hfa
                have : la = lb := by simpa using hfa.symm
                subst this
                exact hout2 ▸ List.mem_append_left ls hx
              · exact hout2 ▸ List.mem_append_right lb (ih ls hrest a h la hfa x hx)

/-- A `pyFlatMapM` run succeeds when every element succeeds. -/
theorem pyFlatMapM_ok {α : Type} (f : α → Py (List ValidationError)) :
    ∀ (l : List α), (∀ a ∈ l, ∃ la, f a = .ok la) →
      ∃ out, pyFlatMapM f l = .ok out := by
  intro l
  induction l with
  | nil => intro _; exact ⟨[], rfl⟩
  | cons b t ih =>
      intro h
      obtain ⟨lb, hlb⟩ := h b (List.mem_cons_self b t)
      obtain ⟨ls, hls⟩ := ih (fun a ha => h a (List.mem_cons_of_mem b ha))
      exact ⟨lb ++ ls, by unfold pyFlatMapM; rw [hlb, hls]⟩

/-- A `pyFlatMapM` run whose successful elements all produce nothing
produces nothing. -/
theorem pyFlatMapM_nil {α : Type} (f : α → Py (List ValidationError))
    (hf : ∀ a la, f a = .ok la → la = []) :
    ∀ (l : List α) (out : List ValidationError),
      pyFlatMapM f l = .ok out → out = [] := by
  intro l
  induction l with
  | nil => intro out h; simpa [pyFlatMapM] using h.symm
  | cons b t ih =>
      intro out h
      unfold pyFlatMapM at h
      cases hfb : f b with
      | exn e => rw [hfb] at h; exact absurd h (by simp)
      | ok lb =>
          rw [hfb] at h
          cases hrest : pyFlatMapM f t with
          | exn e => rw [hrest] at h; exact absurd h (by simp)
          | ok ls =>
              rw [hrest] at h
              have h2 : lb ++ ls = out := by simpa using h
              rw [hf b lb hfb, ih ls hrest] at h2
              exact h2.symm

/-! Claim C10: an explicitly empty checks list is honored, vacuously
validating any graph; only `None` selects the default registry. -/
/-- Claim C10: for every graph, `validate_circuit` with an explicitly empty
checks list returns `VALID` with empty issue lists and
`checks_passed = checks_total = 0`; only `None` is replaced by the full
default registry `ALL_CHECKS`. -/
theorem claim_C10_empty_checks_valid :
    ∀ g : CircuitGraph,
      validate_circuit g (some []) = .ok ⟨.VALID, [], [], 0, 0⟩ ∧
      validate_circuit g none = validate_circuit g (some ALL_CHECKS) :=
  fun _ => ⟨rfl, rfl⟩

/-! Claim C4: the correction loop of `run_pipeline`. -/
/-- Claim C4: the validate-and-correct loop performs at most 3 correction
iterations, returns as soon as a validation is VALID, and on an exhausted
budget returns the last graph, that graph's re-validation, and the full
concatenated corrections log; the characterisation below is total, so the
loop cannot fail merely because convergence was not reached. -/
theorem claim_C4_correction_loop
    (validate : CircuitGraph → ValidationResult)
    (correct : CircuitGraph → ValidationResult → CorrectionResult)
    (g0 : CircuitGraph) :
    (run_pipeline_loop validate correct g0 =
      (let v0 := validate g0
       let r0 := correct g0 v0
       let g1 := r0.corrected_graph
       let v1 := validate g1
       let r1 := correct g1 v1
       let g2 := r1.corrected_graph
       let v2 := validate g2
       let r2 := correct g2 v2
       let g3 := r2.corrected_graph
       if v0.status = .VALID then ⟨g0, v0, [], 1⟩
       else if v1.status = .VALID then ⟨g1, v1, r0.corrections, 2⟩
       else if v2.status = .VALID then
         ⟨g2, v2, r0.corrections ++ r1.corrections, 3⟩
       else
         ⟨g3, validate g3,
          r0.corrections ++ r1.corrections ++ r2.corrections, 3⟩)) ∧
    (run_pipeline_loop validate correct g0).iterations ≤
      MAX_CORRECTION_ITERATIONS := by
  have hit : ∀ (fuel : Nat) (g : CircuitGraph) (acc : List String) (it : Nat),
      (correctionLoopGo validate correct fuel g acc it).iterations ≤ it + fuel := by
    intro fuel
    induction fuel with
    | zero => intro g acc it; simp [correctionLoopGo]
    | succ n ihn =>
        intro g acc it
        rw [correctionLoopGo]
        by_cases h : (validate g).status = .VALID
        · simp only [h, if_true]
          omega
        · simp only [h, if_false]
          calc (correctionLoopGo validate correct n
                  (correct g (validate g)).corrected_graph
                  (acc ++ (correct g (validate g)).corrections)
                  (it + 1)).iterations ≤ (it + 1) + n := ihn _ _ _
            _ = it + (n + 1) := by omega
  have hchar : run_pipeline_loop validate correct g0 =
      (let v0 := validate g0
       let r0 := correct g0 v0
       let g1 := r0.corrected_graph
       let v1 := validate g1
       let r1 := correct g1 v1
       let g2 := r1.corrected_graph
       let v2 := validate g2
       let r2 := correct g2 v2
       let g3 := r2.corrected_graph
       if v0.status = .VALID then ⟨g0, v0, [], 1⟩
       else if v1.status = .VALID then ⟨g1, v1, r0.corrections, 2⟩
       else if v2.status = .VALID then
         ⟨g2, v2, r0.corrections ++ r1.corrections, 3⟩
       else
         ⟨g3, validate g3,
          r0.corrections ++ r1.corrections ++ r2.corrections, 3⟩) := by
    simp only [run_pipeline_loop, MAX_CORRECTION_ITERATIONS, correctionLoopGo]
    split_ifs <;> simp [List.append_assoc]
  exact ⟨hchar, le_trans (hit MAX_CORRECTION_ITERATIONS g0 [] 0) (by decide)⟩

/-- Folding a one-or-nothing producer over a list is filtering then
mapping. -/
theorem flatMap_singleton_filter {α β : Type} (p : α → Bool) (f : α → β) :
    ∀ l : List α, (l.flatMap (fun a => if p a then [f a] else [])) =
      (l.filter p).map f := by
  intro l
  induction l with
  | nil => rfl
  | cons a t ih => by_cases h : p a <;> simp [h, ih]

/-- Claim C6: `check_short_circuits` emits exactly one `E_SHORT_CIRCUIT`
issue for each edge satisfying `shortEdgeSpec` (so in particular none for an
edge on the ground net or tagged as ground routing), and nothing else. -/
theorem claim_C6_short_circuits (g : CircuitGraph) :
    check_short_circuits g =
      (g.edges.filter (fun e => decide (shortEdgeSpec g.ground_net e))).map
        mkShortCircuit := by
  unfold check_short_circuits
  rw [← flatMap_singleton_filter (fun e => decide (shortEdgeSpec g.ground_net e))
    mkShortCircuit g.edges]
  congr 1
  funext e
  simp only [List.mem_cons, List.mem_singleton, List.not_mem_nil, or_false,
    decide_eq_true_eq, shortEdgeSpec]
  split_ifs <;> first | rfl | tauto

/-! Claim C1: status, error aggregation and pass counting of
`validate_circuit`. -/
/-- `runAll` returns one output per run check. -/
theorem runAll_length (g : CircuitGraph) :
    ∀ (cs : List Check) (outs : List (List ValidationError)),
      runAll g cs = .ok outs → outs.length = cs.length := by
  intro cs
  induction cs with
  | nil => intro outs h; cases outs with
      | nil => rfl
      | cons a t => exact absurd h (by simp [runAll])
  | cons c t ih =>
      intro outs h
      unfold runAll at h
      cases hc : c g with
      | exn e => rw [hc] at h; exact absurd h (by simp)
      | ok l =>
          rw [hc] at h
          cases hr : runAll g t with
          | exn e => rw [hr] at h; exact absurd h (by simp)
          | ok ls =>
              rw [hr] at h
              have : l :: ls = outs := by simpa using h
              subst this
              simp [ih ls hr]

/-- The accumulation pass of `validate_circuit`, described through the raw
outputs of the run checks: errors and warnings are the concatenations of the
per-check partitions, and a check counts as passed iff it produced no
error-severity issue. -/
theorem runChecksAcc_spec (g : CircuitGraph) :
    ∀ (cs : List Check) (outs : List (List ValidationError)),
      runAll g cs = .ok outs →
      runChecksAcc g cs = .ok
        ((outs.map (fun l => l.filter isErr)).flatten,
         (outs.map (fun l => l.filter (fun i => !(isErr i)))).flatten,
         outs.countP (fun l => (l.filter isErr).isEmpty)) := by
  intro cs
  induction cs with
  | nil =>
      intro outs h
      cases outs with
      | nil => rfl
      | cons a t => exact absurd h (by simp [runAll])
  | cons c t ih =>
      intro outs h
      unfold runAll at h
      cases hc : c g with
      | exn e => rw [hc] at h; exact absurd h (by simp)
      | ok l =>
          rw [hc] at h
          cases hr : runAll g t with
          | exn e => rw [hr] at h; exact absurd h (by simp)
          | ok ls =>
              rw [hr] at h
              have hout : l :: ls = outs := by simpa using h
              subst hout
              unfold runChecksAcc
              rw [hc, ih ls hr]
              simp only [Py.ok.injEq, Prod.mk.injEq, List.map_cons,
                List.flatten_cons, List.countP_cons]
              refine ⟨trivial, trivial, ?_⟩
              by_cases hl : l.filter isErr = []
              · simp [hl, Nat.add_comm]
              · have : (l.filter isErr).isEmpty = false := by
                  simpa [List.isEmpty_iff] using hl
                simp [hl, this]

/-- Claim C1: for every graph and list of checks whose run completes,
`validate_circuit` reports `VALID` iff the concatenation of the run checks'
error-severity issues is empty; `checks_passed` counts exactly the checks
producing zero error-severity issues (warnings do not count against a
check), and when no error-severity issue exists at all,
`checks_passed = checks_total`. -/
theorem claim_C1_validator_aggregation (g : CircuitGraph) (cs : List Check)
    (outs : List (List ValidationError)) (h : runAll g cs = .ok outs) :
    ∃ res, validate_circuit g (some cs) = .ok res ∧
      (res.status = .VALID ↔ (outs.map (fun l => l.filter isErr)).flatten = []) ∧
      res.errors = (outs.map (fun l => l.filter isErr)).flatten ∧
      res.checks_passed = outs.countP (fun l => (l.filter isErr).isEmpty) ∧
      res.checks_total = cs.length ∧
      ((outs.map (fun l => l.filter isErr)).flatten = [] →
        res.checks_passed = res.checks_total) := by
  have hacc := runChecksAcc_spec g cs outs h
  refine ⟨⟨if (outs.map (fun l => l.filter isErr)).flatten = [] then .VALID
      else .INVALID,
    (outs.map (fun l => l.filter isErr)).flatten,
    (outs.map (fun l => l.filter (fun i => !(isErr i)))).flatten,
    outs.countP (fun l => (l.filter isErr).isEmpty), cs.length⟩, ?_, ?_, rfl, rfl,
    rfl, ?_⟩
  · simp [validate_circuit, hacc]
  · by_cases he : (outs.map (fun l => l.filter isErr)).flatten = [] <;>
      simp [he]
  · intro he
    have hall : ∀ l ∈ outs, (l.filter isErr).isEmpty = true := by
      intro l hl
      have : l.filter isErr = [] := by
        have := List.flatten_eq_nil_iff.mp he
        exact this _ (List.mem_map_of_mem (fun l => l.filter isErr) hl)
      simp [this]
    calc outs.countP (fun l => (l.filter isErr).isEmpty)
        = outs.length := List.countP_eq_length.mpr hall
      _ = cs.length := runAll_length g cs outs h

/-! Claim C2: corrected.  Two failures of the claim as stated: the ground
fixer hardcodes net "GND" and so does not ground the node when the graph's
ground net is named differently, and the decoupling fixer wires the new
capacitor to hardcoded "3V3"/"GND" nodes, never to the listed IC, so the
same `W_MISSING_DECOUPLING` instance is reported again. -/
/-- Counterexample to claim C2.  Left: on `cexAgndGraph` (ground net
"AGND"), the `E_MISSING_GROUND` issue has a registered fixer, yet after
correction re-checking reports the very same issue instance.  Right: on
`cexGndGraph`, the `W_MISSING_DECOUPLING` issue listing "U1" has a
registered fixer, yet after correction the decoupling check still reports
exactly that issue, because the synthesized capacitor is not wired to
"U1". -/
theorem claim_C2_counterexample :
    (mkMissingGround "AGND" cexMcu ∈ cexAgndVal.errors ∧
     "E_MISSING_GROUND" ∈ FIXERS.map (fun p => p.1) ∧
     correct_circuit cexAgndGraph cexAgndVal = .ok cexAgndCorr ∧
     mkMissingGround "AGND" cexMcu ∈
       check_ground_continuity cexAgndCorr.corrected_graph) ∧
    (mkMissingDecoupling ["U1"] ∈ cexGndVal.warnings ∧
     "W_MISSING_DECOUPLING" ∈ FIXERS.map (fun p => p.1) ∧
     correct_circuit cexGndGraph cexGndVal = .ok cexGndCorr ∧
     check_decoupling_caps cexGndCorr.corrected_graph =
       .ok [mkMissingDecoupling ["U1"]]) := by decide

/-- Claim C3, evaluated at the failing input: validation emits exactly the
SDA/SCL-specific pull-up warnings, the registry contains no fixer for either
of those codes (only the never-emitted "W_MISSING_PULLUP"), and correction
therefore synthesizes nothing: the graph is returned unchanged with an empty
corrections log. -/
theorem claim_C3_pullup_fixer_unreachable :
    c3Val.warnings.map (fun i => i.code) =
      ["W_MISSING_I2C_PULLUP_SDA", "W_MISSING_I2C_PULLUP_SCL"] ∧
    c3Val.errors = [] ∧
    FIXERS.map (fun p => p.1) =
      ["E_MISSING_GROUND", "W_MISSING_DECOUPLING", "W_MISSING_PULLUP"] ∧
    "W_MISSING_I2C_PULLUP_SDA" ∉ FIXERS.map (fun p => p.1) ∧
    "W_MISSING_I2C_PULLUP_SCL" ∉ FIXERS.map (fun p => p.1) ∧
    correct_circuit c3Graph c3Val = .ok ⟨c3Graph, []⟩ := by decide

/-- Counterexample to claim C5: the supply voltage resolves to the default
zero, which is below `vout + dropout_v` (4.4) and below `vin_min` (4.5), so
the claim demands both `E_DROPOUT_VIOLATION` and `E_VIN_BELOW_MIN`; the
check emits nothing. -/
theorem claim_C5_counterexample :
    getFloatD c5Graph.power_source "voltage" qzero = .ok qzero ∧
    qlt qzero (qadd ⟨33, 10⟩ ⟨11, 10⟩) = true ∧
    qlt qzero ⟨45, 10⟩ = true ∧
    check_regulator_dropout c5Graph = .ok [] := by decide

/-- Counterexample to claim C7: on a graph whose properties are all
scalars (here a string), `float("abc")` raises `ValueError`, so
`check_voltage_compatibility` — and with it `validate_circuit` — raises
rather than returning a list of issues. -/
theorem claim_C7_counterexample :
    pyParseFloat "abc" = none ∧
    check_voltage_compatibility c7BadGraph = .exn .valueError ∧
    validate_circuit c7BadGraph none = .exn .valueError := by decide

/-- Claim C8, evaluated at the failing input: node ids of the input graph
are pairwise distinct; the decoupling fixer then synthesizes a capacitor
with the already-taken id "C_FIX_1", so the corrected graph holds two nodes
with that id and id uniqueness is broken by correction. -/
theorem claim_C8_id_collision :
    (c8Graph.nodes.map (fun n => n.id)).Nodup ∧
    mkMissingDecoupling ["U1", "C_FIX_1"] ∈ c8Val.warnings ∧
    correct_circuit c8Graph c8Val = .ok c8Corr ∧
    (c8Corr.corrected_graph.nodes.map (fun n => n.id)).count "C_FIX_1" = 2 ∧
    ¬ (c8Corr.corrected_graph.nodes.map (fun n => n.id)).Nodup := by decide

/-- On a successful run, a regulator node whose guards pass contributes [] :
helper for the zero-supply part of claim C5. -/
theorem regulatorIssues_zero_supply (sv : PyFloat) (hz : qlt qzero sv = false) :
    ∀ (a : CircuitNode) (la : List ValidationError),
      regulatorIssues sv a = .ok la → la = [] := by
  intro a la hla
  unfold regulatorIssues at hla
  by_cases hat : a.type ≠ "regulator"
  · rw [if_pos hat] at hla
    simpa using hla.symm
  · rw [if_neg hat] at hla
    cases h1 : getFloatD a.properties "vout" qzero with
    | exn e => rw [h1] at hla; exact absurd hla (by simp)
    | ok vo =>
        rw [h1] at hla
        cases h2 : getFloatD a.properties "dropout_v" qzero with
        | exn e => rw [h2] at hla; exact absurd hla (by simp)
        | ok dv =>
            rw [h2] at hla
            cases h3 : getFloatD a.properties "vin_min" qzero with
            | exn e => rw [h3] at hla; exact absurd hla (by simp)
            | ok vm =>
                rw [h3] at hla
                simpa [hz] using hla.symm

/-- Claim C5 as amended: both regulator emissions are guarded by a strictly
positive supply voltage, and the `E_VIN_BELOW_MIN` emission additionally by
a strictly positive `vin_min`; under those guards each issue is emitted
(independently, so both may fire for the same node), and with a
non-positive supply voltage (in particular the absent-key default zero) the
check emits nothing at all. -/
theorem claim_C5_regulator_guarded (g : CircuitGraph) (sv : PyFloat)
    (l : List ValidationError) (n : CircuitNode) (vout dropout vin_min : PyFloat)
    (hsv : getFloatD g.power_source "voltage" qzero = .ok sv)
    (hl : check_regulator_dropout g = .ok l)
    (hn : n ∈ g.nodes) (ht : n.type = "regulator")
    (hv : getFloatD n.properties "vout" qzero = .ok vout)
    (hd : getFloatD n.properties "dropout_v" qzero = .ok dropout)
    (hm : getFloatD n.properties "vin_min" qzero = .ok vin_min) :
    ((qlt qzero sv && qlt sv (qadd vout dropout)) = true →
      mkDropout n sv vout dropout (qadd vout dropout) ∈ l) ∧
    ((qlt qzero sv && qlt qzero vin_min && qlt sv vin_min) = true →
      mkVinBelowMin n sv vin_min ∈ l) ∧
    (qlt qzero sv = false → l = []) := by
  unfold check_regulator_dropout at hl
  rw [hsv] at hl
  have hreg : regulatorIssues sv n = .ok
      ((if qlt qzero sv && qlt sv (qadd vout dropout) then
          [mkDropout n sv vout dropout (qadd vout dropout)]
        else []) ++
       (if qlt qzero sv && qlt qzero vin_min && qlt sv vin_min then
          [mkVinBelowMin n sv vin_min]
        else [])) := by
    unfold regulatorIssues
    rw [hv, hd, hm]
    simp [ht]
  refine ⟨?_, ?_, ?_⟩
  · intro hcond
    refine pyFlatMapM_mem (regulatorIssues sv) g.nodes l hl n hn _ hreg _ ?_
    simp [hcond]
  · intro hcond
    refine pyFlatMapM_mem (regulatorIssues sv) g.nodes l hl n hn _ hreg _ ?_
    simp [hcond]
  · intro hz
    exact pyFlatMapM_nil (regulatorIssues sv) (regulatorIssues_zero_supply sv hz)
      g.nodes l hl

/-- Witness for the amended claim C5, at scenario C (vout 3.3, dropout 1.1,
vin_min 4.5, supply 3.7): both issues fire independently for the same
node. -/
theorem claim_C5_witness :
    mkDropout c5Reg ⟨37, 10⟩ ⟨33, 10⟩ ⟨11, 10⟩ (qadd ⟨33, 10⟩ ⟨11, 10⟩) ∈ c5wList ∧
    mkVinBelowMin c5Reg ⟨37, 10⟩ ⟨45, 10⟩ ∈ c5wList := by
  have h := claim_C5_regulator_guarded c5wGraph ⟨37, 10⟩ c5wList c5Reg
    ⟨33, 10⟩ ⟨11, 10⟩ ⟨45, 10⟩ (by decide) (by decide) (by decide) (by decide)
    (by decide) (by decide) (by decide)
  exact ⟨h.1 (by decide), h.2.1 (by decide)⟩

/-- A successful dict lookup returns the value of some stored entry with the
looked-up key. -/
theorem propsGet?_mem (p : Props) (k : String) (v : PropVal)
    (h : propsGet? p k = some v) : ∃ kv ∈ p, kv.1 = k ∧ kv.2 = v := by
  unfold propsGet? at h
  cases hf : p.find? (fun kv => kv.1 == k) with
  | none => rw [hf] at h; exact absurd h (by simp)
  | some kv =>
      rw [hf] at h
      refine ⟨kv, List.mem_of_find?_eq_some hf, ?_, ?_⟩
      · have := List.find?_some hf
        simpa using this
      · simpa using h

/-- Reading any non-`purpose` key as a float succeeds on check-safe
properties. -/
theorem getFloatD_safe (p : Props) (hp : checkSafeProps p) (k : String)
    (hk : k ≠ "purpose") (d : PyFloat) : ∃ q, getFloatD p k d = .ok q := by
  unfold getFloatD
  cases hv : propsGet? p k with
  | none => exact ⟨d, rfl⟩
  | some v =>
      obtain ⟨kv, hmem, hk1, hv2⟩ := propsGet?_mem p k v hv
      have hs := hp kv hmem
      unfold safeVal at hs
      rw [if_neg (by simpa using hk1.symm ▸ hk)] at hs
      cases hval : kv.2 with
      | num q => exact ⟨q, by rw [← hv2, hval]; rfl⟩
      | str s => rw [hval] at hs; exact absurd hs (by simp)
      | bool b =>
          refine ⟨if b then qofNat 1 else qzero, ?_⟩
          rw [← hv2, hval]
          rfl

/-- The `purpose` value (with its empty-string default) is a string on
check-safe properties. -/
theorem purpose_safe (p : Props) (hp : checkSafeProps p) :
    ∃ s, propsGetD p "purpose" (.str "") = .str s := by
  unfold propsGetD
  cases hv : propsGet? p "purpose" with
  | none => exact ⟨"", rfl⟩
  | some v =>
      obtain ⟨kv, hmem, hk1, hv2⟩ := propsGet?_mem p "purpose" v hv
      have hs := hp kv hmem
      unfold safeVal at hs
      rw [if_pos (by simpa using hk1)] at hs
      cases hval : kv.2 with
      | num q => rw [hval] at hs; exact absurd hs (by simp)
      | str s => exact ⟨s, by rw [← hv2, hval]; rfl⟩
      | bool b => rw [hval] at hs; exact absurd hs (by simp)

/-- A node found through the node map is a node of the graph. -/
theorem nodesGet_mem (g : CircuitGraph) (i : String) (n : CircuitNode)
    (h : nodesGet g i = some n) : n ∈ g.nodes := by
  unfold nodesGet at h
  have := List.mem_of_find?_eq_some h
  exact List.mem_reverse.mp this

/-- One consumer of one rail never makes the voltage check raise when all
node properties are check-safe. -/
theorem voltConsumer_ok (g : CircuitGraph)
    (hn : ∀ n ∈ g.nodes, checkSafeProps n.properties) (rail : PowerRail)
    (cid : String) : ∃ la, voltConsumerIssues g rail cid = .ok la := by
  unfold voltConsumerIssues
  cases hno : nodesGet g cid with
  | none => exact ⟨[mkUnknownConsumer rail cid], rfl⟩
  | some node =>
      have hsafe := hn node (nodesGet_mem g cid node hno)
      obtain ⟨q1, h1⟩ := getFloatD_safe node.properties hsafe
        "operating_voltage_min" (by decide) qzero
      obtain ⟨q2, h2⟩ := getFloatD_safe node.properties hsafe
        "operating_voltage_max" (by decide) ⟨55, 10⟩
      dsimp only
      rw [h1]
      dsimp only
      rw [h2]
      dsimp only
      refine ⟨if qle q1 rail.voltage && qle rail.voltage q2 then []
        else [mkVoltageMismatch rail node q1 q2], ?_⟩
      split_ifs <;> rfl

/-- The voltage check never raises on check-safe properties. -/
theorem check_voltage_ok (g : CircuitGraph)
    (hn : ∀ n ∈ g.nodes, checkSafeProps n.properties) :
    ∃ l, check_voltage_compatibility g = .ok l := by
  unfold check_voltage_compatibility
  exact pyFlatMapM_ok _ _ (fun rail _ =>
    pyFlatMapM_ok _ _ (fun cid _ => voltConsumer_ok g hn rail cid))

/-- The GPIO overcurrent check never raises on check-safe properties. -/
theorem check_gpio_ok (g : CircuitGraph)
    (hn : ∀ n ∈ g.nodes, checkSafeProps n.properties) :
    ∃ l, check_gpio_overcurrent g = .ok l := by
  unfold check_gpio_overcurrent
  refine pyFlatMapM_ok _ _ (fun n hmemn => ?_)
  by_cases hmcu : n.type ≠ "mcu"
  · exact ⟨[], by rw [if_pos hmcu]⟩
  · rw [if_neg hmcu]
    obtain ⟨mx, hmx⟩ := getFloatD_safe n.properties (hn n hmemn)
      "gpio_max_current_mA" (by decide) (qofNat GPIO_MAX_CURRENT_MA)
    rw [hmx]
    refine pyFlatMapM_ok _ _ (fun e _ => ?_)
    unfold gpioEdgeIssues
    by_cases hsrc : e.source_node ≠ n.id
    · exact ⟨[], by rw [if_pos hsrc]⟩
    · rw [if_neg hsrc]
      by_cases hsig : e.signal_type ≠ "signal"
      · exact ⟨[], by rw [if_pos hsig]⟩
      · rw [if_neg hsig]
        cases hta : nodesGet g e.target_node with
        | none => exact ⟨[], rfl⟩
        | some target =>
            obtain ⟨dq, hdq⟩ := getFloatD_safe target.properties
              (hn target (nodesGet_mem g e.target_node target hta))
              "current_draw_mA" (by decide) qzero
            dsimp only
            rw [hdq]
            dsimp only
            refine ⟨if qlt mx dq then
                (if target.type = "actuator" then [mkGpioRisk n target mx] else []) ++
                  [mkGpioOver n target dq mx]
              else
                (if target.type = "actuator" then [mkGpioRisk n target mx] else []),
              ?_⟩
            split_ifs <;> rfl

/-- The regulator dropout check never raises on check-safe properties. -/
theorem check_regulator_ok (g : CircuitGraph)
    (hn : ∀ n ∈ g.nodes, checkSafeProps n.properties)
    (hp : checkSafeProps g.power_source) :
    ∃ l, check_regulator_dropout g = .ok l := by
  unfold check_regulator_dropout
  obtain ⟨sv, hsv⟩ := getFloatD_safe g.power_source hp "voltage" (by decide) qzero
  rw [hsv]
  refine pyFlatMapM_ok _ _ (fun n hmemn => ?_)
  unfold regulatorIssues
  by_cases hreg : n.type ≠ "regulator"
  · exact ⟨[], by rw [if_pos hreg]⟩
  · rw [if_neg hreg]
    obtain ⟨vo, hvo⟩ := getFloatD_safe n.properties (hn n hmemn) "vout"
      (by decide) qzero
    obtain ⟨dv, hdv⟩ := getFloatD_safe n.properties (hn n hmemn) "dropout_v"
      (by decide) qzero
    obtain ⟨vm, hvm⟩ := getFloatD_safe n.properties (hn n hmemn) "vin_min"
      (by decide) qzero
    rw [hvo, hdv, hvm]
    exact ⟨_, rfl⟩

/-- Classifying a node as a decoupling capacitor never raises on check-safe
properties. -/
theorem isDecouplingCap_ok (n : CircuitNode) (hs : checkSafeProps n.properties) :
    ∃ b, isDecouplingCap n = .ok b := by
  unfold isDecouplingCap
  by_cases hpass : n.type = "passive"
  · rw [if_pos hpass]
    obtain ⟨s, hsv⟩ := purpose_safe n.properties hs
    rw [hsv]
    exact ⟨_, rfl⟩
  · exact ⟨false, by rw [if_neg hpass]⟩

/-- The coverage fold never raises on check-safe properties. -/
theorem coveredFold_ok (g : CircuitGraph) :
    ∀ ns : List CircuitNode, (∀ n ∈ ns, checkSafeProps n.properties) →
      ∃ out, coveredFold g ns = .ok out := by
  intro ns
  induction ns with
  | nil => exact fun _ => ⟨[], rfl⟩
  | cons n t ih =>
      intro h
      obtain ⟨b, hb⟩ := isDecouplingCap_ok n (h n (List.mem_cons_self n t))
      obtain ⟨rest, hrest⟩ := ih (fun a ha => h a (List.mem_cons_of_mem n ha))
      refine ⟨(if b then capCovered g n.id else []) ++ rest, ?_⟩
      unfold coveredFold
      rw [hb, hrest]

/-- The decoupling check never raises on check-safe properties. -/
theorem check_decoupling_ok (g : CircuitGraph)
    (hn : ∀ n ∈ g.nodes, checkSafeProps n.properties) :
    ∃ l, check_decoupling_caps g = .ok l := by
  unfold check_decoupling_caps allCovered
  obtain ⟨cov, hcov⟩ := coveredFold_ok g g.nodes hn
  rw [hcov]
  exact ⟨_, rfl⟩

/-- The pull-up flag contribution of one node never raises on check-safe
properties. -/
theorem nodePullupFlags_ok (g : CircuitGraph) (n : CircuitNode)
    (hs : checkSafeProps n.properties) : ∃ b, nodePullupFlags g n = .ok b := by
  unfold nodePullupFlags
  by_cases hpass : n.type ≠ "passive"
  · exact ⟨(false, false), by rw [if_pos hpass]⟩
  · rw [if_neg hpass]
    obtain ⟨s, hsv⟩ := purpose_safe n.properties hs
    rw [hsv]
    dsimp only [pyLowerVal]
    by_cases hpu : ¬(strContainsSub (strLower s) "pull-up" ∨
        strContainsSub (strLower s) "pullup")
    · exact ⟨(false, false), by rw [if_pos hpu]⟩
    · rw [if_neg hpu]
      exact ⟨_, rfl⟩

/-- The pull-up flags fold never raises on check-safe properties. -/
theorem pullupFlagsFold_ok (g : CircuitGraph) :
    ∀ ns : List CircuitNode, (∀ n ∈ ns, checkSafeProps n.properties) →
      ∃ out, pullupFlagsFold g ns = .ok out := by
  intro ns
  induction ns with
  | nil => exact fun _ => ⟨(false, false), rfl⟩
  | cons n t ih =>
      intro h
      obtain ⟨b, hb⟩ := nodePullupFlags_ok g n (h n (List.mem_cons_self n t))
      obtain ⟨rest, hrest⟩ := ih (fun a ha => h a (List.mem_cons_of_mem n ha))
      refine ⟨(b.1 || rest.1, b.2 || rest.2), ?_⟩
      unfold pullupFlagsFold
      rw [hb, hrest]

/-- The pull-up check never raises on check-safe properties. -/
theorem check_pullup_ok (g : CircuitGraph)
    (hn : ∀ n ∈ g.nodes, checkSafeProps n.properties) :
    ∃ l, check_pull_up_resistors g = .ok l := by
  unfold check_pull_up_resistors
  by_cases hi2c : ¬ g.edges.any isI2CEdge
  · exact ⟨[], by rw [if_pos hi2c]⟩
  · rw [if_neg hi2c]
    obtain ⟨fl, hfl⟩ := pullupFlagsFold_ok g g.nodes hn
    rw [hfl]
    exact ⟨_, rfl⟩

/-- Claim C7 as amended: when every property value consulted numerically is
a number or boolean and every `purpose` value is a string (`safeVal`), no
check in the registry raises; unresolved rail consumers are reported as
`E_UNKNOWN_CONSUMER` issues (unresolved edge endpoints are skipped by
construction of the checks, and absent properties take the checks'
defaults). -/
theorem claim_C7_checks_total (g : CircuitGraph)
    (hn : ∀ n ∈ g.nodes, checkSafeProps n.properties)
    (hp : checkSafeProps g.power_source) :
    (∀ c ∈ ALL_CHECKS, ∃ lc, c g = .ok lc) ∧
    (∀ rail ∈ g.power_rails, ∀ cid ∈ rail.consumers, nodesGet g cid = none →
      ∀ lv, check_voltage_compatibility g = .ok lv →
        mkUnknownConsumer rail cid ∈ lv) := by
  constructor
  · intro c hc
    simp only [ALL_CHECKS, List.mem_cons, List.not_mem_nil, or_false] at hc
    rcases hc with h | h | h | h | h | h | h
    all_goals subst h
    · exact check_voltage_ok g hn
    · exact ⟨_, rfl⟩
    · exact ⟨_, rfl⟩
    · exact check_gpio_ok g hn
    · exact check_regulator_ok g hn hp
    · exact check_decoupling_ok g hn
    · exact check_pullup_ok g hn
  · intro rail hrail cid hcid hnone lv hlv
    unfold check_voltage_compatibility at hlv
    obtain ⟨lr, hlr⟩ : ∃ lr,
        pyFlatMapM (voltConsumerIssues g rail) rail.consumers = .ok lr :=
      pyFlatMapM_ok _ _ (fun c _ => voltConsumer_ok g hn rail c)
    refine pyFlatMapM_mem _ g.power_rails lv hlv rail hrail lr hlr _ ?_
    refine pyFlatMapM_mem _ rail.consumers lr hlr cid hcid
      [mkUnknownConsumer rail cid] ?_ _ (by simp)
    unfold voltConsumerIssues
    rw [hnone]

/-- Witness for the amended claim C7: on a concrete check-safe graph with a
dangling consumer id, every registered check returns, and the voltage check
reports `E_UNKNOWN_CONSUMER` for the dangling id. -/
theorem claim_C7_witness :
    (∀ c ∈ ALL_CHECKS, ∃ lc, c c7wGraph = .ok lc) ∧
    (∀ lv, check_voltage_compatibility c7wGraph = .ok lv →
      mkUnknownConsumer c7wRail "GHOST" ∈ lv) := by
  have h := claim_C7_checks_total c7wGraph (by decide) (by decide)
  exact ⟨h.1, fun lv hlv =>
    h.2 c7wRail (by decide) "GHOST" (by decide) (by decide) lv hlv⟩

/-- Extension is reflexive. -/
theorem graphExtends_refl (g : CircuitGraph) : graphExtends g g :=
  ⟨⟨[], by simp⟩, ⟨[], by simp⟩, rfl⟩

/-- Extension is transitive. -/
theorem graphExtends_trans {a b c : CircuitGraph} (h1 : graphExtends a b)
    (h2 : graphExtends b c) : graphExtends a c := by
  obtain ⟨⟨ns1, hn1⟩, ⟨es1, he1⟩, hg1⟩ := h1
  obtain ⟨⟨ns2, hn2⟩, ⟨es2, he2⟩, hg2⟩ := h2
  exact ⟨⟨ns1 ++ ns2, by rw [hn2, hn1, List.append_assoc]⟩,
    ⟨es1 ++ es2, by rw [he2, he1, List.append_assoc]⟩, by rw [hg2, hg1]⟩

/-- Closed form of the ground fixer's loop: it appends one hardcoded ground
edge per listed node id and logs one line per id. -/
theorem fixGroundAux_spec :
    ∀ (ids : List String) (g : CircuitGraph),
      fixGroundAux g ids =
        ({ g with edges := g.edges ++ ids.map gndFixEdge },
         ids.map (fun nid => "Added ground connection for " ++ nid)) := by
  intro ids
  induction ids with
  | nil => intro g; simp [fixGroundAux]
  | cons nid rest ih =>
      intro g
      simp [fixGroundAux, ih, List.append_assoc]

/-- The decoupling fixer's loop only extends the graph. -/
theorem fixDecouplingAux_ext :
    ∀ (ids : List String) (ec i : Nat) (g : CircuitGraph),
      graphExtends g (fixDecouplingAux ec i g ids).1 := by
  intro ids
  induction ids with
  | nil => intro ec i g; exact graphExtends_refl g
  | cons nid rest ih =>
      intro ec i g
      have hstep : graphExtends g
          { g with
            nodes := g.nodes ++ [fixCapNode ("C_FIX_" ++ toString (ec + i + 1))],
            edges := g.edges ++
              [fixCapVccEdge ("C_FIX_" ++ toString (ec + i + 1)),
               fixCapGndEdge ("C_FIX_" ++ toString (ec + i + 1))] } :=
        ⟨⟨_, rfl⟩, ⟨_, rfl⟩, rfl⟩
      have := graphExtends_trans hstep (ih ec (i + 1) _)
      simpa [fixDecouplingAux] using this

/-- The pull-up fixer's loop only extends the graph. -/
theorem fixPullupsAux_ext :
    ∀ (lines : List String) (g : CircuitGraph),
      graphExtends g (fixPullupsAux g lines).1 := by
  intro lines
  induction lines with
  | nil => intro g; exact graphExtends_refl g
  | cons line rest ih =>
      intro g
      have hstep : graphExtends g
          { g with
            nodes := g.nodes ++ [fixPullupNode line],
            edges := g.edges ++ [fixPullupVccEdge line, fixPullupSigEdge line] } :=
        ⟨⟨_, rfl⟩, ⟨_, rfl⟩, rfl⟩
      have := graphExtends_trans hstep (ih _)
      simpa [fixPullupsAux] using this

/-- Every registered fixer is one of the three known ones. -/
theorem lookupFixer_cases (code : String) (f : Fixer)
    (h : lookupFixer code = some f) :
    f = (fun g e => .ok (_fix_missing_ground g e)) ∨
    f = _fix_missing_decoupling ∨
    f = (fun g e => .ok (_fix_missing_pullups g e)) := by
  unfold lookupFixer FIXERS at h
  by_cases h1 : ("E_MISSING_GROUND" == code) = true
  · rw [List.find?_cons_of_pos _ (by simpa using h1)] at h
    exact Or.inl (by simpa using h.symm)
  · rw [List.find?_cons_of_neg _ (by simpa using h1)] at h
    by_cases h2 : ("W_MISSING_DECOUPLING" == code) = true
    · rw [List.find?_cons_of_pos _ (by simpa using h2)] at h
      exact Or.inr (Or.inl (by simpa using h.symm))
    · rw [List.find?_cons_of_neg _ (by simpa using h2)] at h
      by_cases h3 : ("W_MISSING_PULLUP" == code) = true
      · rw [List.find?_cons_of_pos _ (by simpa using h3)] at h
        exact Or.inr (Or.inr (by simpa using h.symm))
      · rw [List.find?_cons_of_neg _ (by simpa using h3)] at h
        exact absurd h (by simp)

/-- One correction step only extends the working graph. -/
theorem fixStep_ext (st : CircuitGraph × List String) (issue : ValidationError)
    (out : CircuitGraph × List String) (h : fixStep st issue = .ok out) :
    graphExtends st.1 out.1 := by
  unfold fixStep at h
  cases hlf : lookupFixer issue.code with
  | none =>
      rw [hlf] at h
      have : st = out := by simpa using h
      exact this ▸ graphExtends_refl st.1
  | some f =>
      rw [hlf] at h
      rcases lookupFixer_cases issue.code f hlf with hf | hf | hf
      · subst hf
        dsimp only at h
        unfold _fix_missing_ground at h
        rw [fixGroundAux_spec] at h
        dsimp only at h
        obtain ⟨o1, o2⟩ := out
        simp only [Py.ok.injEq, Prod.mk.injEq] at h
        rw [← h.1]
        exact ⟨⟨[], by simp⟩, ⟨_, rfl⟩, rfl⟩
      · subst hf
        dsimp only [_fix_missing_decoupling] at h
        cases hec : countExistingCaps st.1.nodes with
        | exn e => rw [hec] at h; exact absurd h (by simp)
        | ok ec =>
            rw [hec] at h
            dsimp only at h
            have hext := fixDecouplingAux_ext issue.node_ids ec 0 st.1
            cases hfd : fixDecouplingAux ec 0 st.1 issue.node_ids with
            | mk g1 cs =>
                rw [hfd] at h hext
                dsimp only at h
                obtain ⟨o1, o2⟩ := out
                simp only [Py.ok.injEq, Prod.mk.injEq] at h
                rw [← h.1]
                exact hext
      · subst hf
        dsimp only [_fix_missing_pullups] at h
        have hext := fixPullupsAux_ext ["SDA", "SCL"] st.1
        cases hfp : fixPullupsAux st.1 ["SDA", "SCL"] with
        | mk g1 cs =>
            rw [hfp] at h hext
            dsimp only at h
            obtain ⟨o1, o2⟩ := out
            simp only [Py.ok.injEq, Prod.mk.injEq] at h
            rw [← h.1]
            exact hext

/-- The whole correction fold only extends the working graph. -/
theorem fixFold_ext :
    ∀ (issues : List ValidationError) (st out : CircuitGraph × List String),
      fixFold st issues = .ok out → graphExtends st.1 out.1 := by
  intro issues
  induction issues with
  | nil =>
      intro st out h
      have : st = out := by simpa [fixFold] using h
      exact this ▸ graphExtends_refl st.1
  | cons a rest ih =>
      intro st out h
      unfold fixFold at h
      cases hs : fixStep st a with
      | exn e => rw [hs] at h; exact absurd h (by simp)
      | ok st1 =>
          rw [hs] at h
          exact graphExtends_trans (fixStep_ext st a st1 hs) (ih st1 out h)

/-- Processing an `E_MISSING_GROUND` issue plants the hardcoded ground-fix
edge for each of its node ids, and the edge survives the rest of the
fold. -/
theorem fixFold_ground_edge :
    ∀ (issues : List ValidationError) (st out : CircuitGraph × List String),
      fixFold st issues = .ok out →
      ∀ issue ∈ issues, issue.code = "E_MISSING_GROUND" →
      ∀ nid ∈ issue.node_ids, gndFixEdge nid ∈ out.1.edges := by
  intro issues
  induction issues with
  | nil => intro st out _ issue hmem; exact absurd hmem (List.not_mem_nil issue)
  | cons a rest ih =>
      intro st out h issue hmem hcode nid hnid
      unfold fixFold at h
      cases hs : fixStep st a with
      | exn e => rw [hs] at h; exact absurd h (by simp)
      | ok st1 =>
          rw [hs] at h
          rcases List.mem_cons.mp hmem with heq | hmem2
          · subst heq
            have hstep : st1.1.edges =
                st.1.edges ++ issue.node_ids.map gndFixEdge := by
              unfold fixStep at hs
              have hlk : lookupFixer issue.code =
                  some (fun g e => .ok (_fix_missing_ground g e)) := by
                rw [hcode]
                unfold lookupFixer FIXERS
                rw [List.find?_cons_of_pos _ (by simp)]
                rfl
              rw [hlk] at hs
              dsimp only at hs
              unfold _fix_missing_ground at hs
              rw [fixGroundAux_spec] at hs
              dsimp only at hs
              obtain ⟨s1, s2⟩ := st1
              simp only [Py.ok.injEq, Prod.mk.injEq] at hs
              rw [← hs.1]
            have hmem_e : gndFixEdge nid ∈ st1.1.edges := by
              rw [hstep]
              exact List.mem_append_right _ (List.mem_map_of_mem gndFixEdge hnid)
            obtain ⟨_, ⟨es, hes⟩, _⟩ := fixFold_ext rest st1 out h
            rw [hes]
            exact List.mem_append_left es hmem_e
          · exact ih st1 out h issue hmem2 hcode nid hnid

/-- Membership inversion for the ground-continuity check: every issue it
emits names exactly one node, an IC of the graph that is not grounded. -/
theorem ground_check_mem (g : CircuitGraph) (i : ValidationError)
    (h : i ∈ check_ground_continuity g) :
    ∃ n ∈ g.nodes, i = mkMissingGround g.ground_net n ∧
      n.id ∉ groundedIds g ∧ i.node_ids = [n.id] := by
  unfold check_ground_continuity at h
  obtain ⟨n, hn, hin⟩ := List.mem_flatMap.mp h
  by_cases hc : n.type ∈ IC_TYPES ∧ n.id ∉ groundedIds g
  · rw [if_pos hc] at hin
    have : i = mkMissingGround g.ground_net n := by simpa using hin
    exact ⟨n, hn, this, hc.2, by rw [this]; rfl⟩
  · rw [if_neg hc] at hin
    exact absurd hin (List.not_mem_nil i)

/-- An endpoint of a ground-net (or ground-tagged) edge is grounded. -/
theorem mem_groundedIds_of_edge (g : CircuitGraph) (e : CircuitEdge)
    (he : e ∈ g.edges) (hc : e.net_name = g.ground_net ∨ e.signal_type = "ground") :
    e.source_node ∈ groundedIds g := by
  unfold groundedIds
  exact List.mem_flatMap.mpr ⟨e, he, by rw [if_pos hc]; simp⟩

/-- Claim C2 as amended: on a graph whose ground net is named "GND", fixing
an `E_MISSING_GROUND` issue grounds every node id the issue lists, and
re-running the ground-continuity check on the corrected graph reports no
issue naming those ids (the fixer hardcodes net "GND", so this fails when
`ground_net ≠ "GND"`; and the decoupling fixer does not wire the new
capacitor to the listed ICs, so `W_MISSING_DECOUPLING` can be reported
again — both failures are exhibited by `claim_C2_counterexample`). -/
theorem claim_C2_ground_fix (g : CircuitGraph) (v : ValidationResult)
    (res : CorrectionResult) (issue : ValidationError) (nid : String)
    (hg : g.ground_net = "GND")
    (hc : correct_circuit g v = .ok res)
    (hi : issue ∈ v.errors ++ v.warnings)
    (hcode : issue.code = "E_MISSING_GROUND")
    (hn : nid ∈ issue.node_ids) :
    nid ∈ groundedIds res.corrected_graph ∧
    ∀ i ∈ check_ground_continuity res.corrected_graph, nid ∉ i.node_ids := by
  unfold correct_circuit at hc
  cases hf : fixFold (g, []) (v.errors ++ v.warnings) with
  | exn e => rw [hf] at hc; exact absurd hc (by simp)
  | ok st =>
      obtain ⟨s1, s2⟩ := st
      rw [hf] at hc
      dsimp only at hc
      simp only [Py.ok.injEq] at hc
      have hres : res.corrected_graph = s1 := by rw [← hc]
      have hedge : gndFixEdge nid ∈ s1.edges :=
        fixFold_ground_edge (v.errors ++ v.warnings) (g, []) (s1, s2) hf issue
          hi hcode nid hn
      have hgnet : s1.ground_net = "GND" := by
        obtain ⟨_, _, hgn⟩ :=
          fixFold_ext (v.errors ++ v.warnings) (g, []) (s1, s2) hf
        rw [hgn]
        exact hg
      have hgrounded : nid ∈ groundedIds res.corrected_graph := by
        rw [hres]
        exact mem_groundedIds_of_edge s1 (gndFixEdge nid) hedge
          (Or.inl (by rw [hgnet]; rfl))
      refine ⟨hgrounded, ?_⟩
      intro i hi2 hnin
      obtain ⟨n, _, _, hngr, hids⟩ := ground_check_mem res.corrected_graph i hi2
      rw [hids] at hnin
      have : nid = n.id := by simpa using hnin
      exact hngr (this ▸ hgrounded)

/-- Witness for the amended claim C2: after correcting the engine-reported
`E_MISSING_GROUND` for "U1" on a "GND"-grounded graph, "U1" is grounded and
the re-run ground check reports no issue naming it. -/
theorem claim_C2_witness :
    "U1" ∈ groundedIds c2wCorr.corrected_graph ∧
    ∀ i ∈ check_ground_continuity c2wCorr.corrected_graph,
      "U1" ∉ i.node_ids :=
  claim_C2_ground_fix c2wGraph c2wVal c2wCorr (mkMissingGround "GND" cexMcu)
    "U1" (by decide) (by decide) (by decide) (by decide) (by decide)

/-- Witness for claim C1: running only the ground check on a graph with one
ungrounded MCU, the aggregation properties hold at a concrete input. -/
theorem claim_C1_witness :
    ∃ res, validate_circuit c2wGraph (some c1wChecks) = .ok res ∧
      (res.status = .VALID ↔
        (([[mkMissingGround "GND" cexMcu]].map
          (fun l => l.filter isErr)).flatten = [])) ∧
      res.errors = ([[mkMissingGround "GND" cexMcu]].map
        (fun l => l.filter isErr)).flatten ∧
      res.checks_passed = [[mkMissingGround "GND" cexMcu]].countP
        (fun l => (l.filter isErr).isEmpty) ∧
      res.checks_total = c1wChecks.length ∧
      ((([[mkMissingGround "GND" cexMcu]].map
          (fun l => l.filter isErr)).flatten = []) →
        res.checks_passed = res.checks_total) :=
  claim_C1_validator_aggregation c2wGraph c1wChecks
    [[mkMissingGround "GND" cexMcu]] (by decide)

/-! Claim C9: the deep-copy discipline of `correct_circuit`, stated on the
heap model. -/
/-- Reading the freshly appended cell gives the appended value. -/
theorem getD_append_len {α : Type} [Inhabited α] :
    ∀ (l : List α) (a d : α), (l ++ [a]).getD l.length d = a := by
  intro l
  induction l with
  | nil => intro a d; rfl
  | cons b t ih => intro a d; exact ih a d

/-- Writing the freshly appended cell replaces only the appended value. -/
theorem set_append_len {α : Type} :
    ∀ (l : List α) (a b : α), (l ++ [a]).set l.length b = l ++ [b] := by
  intro l
  induction l with
  | nil => intro a b; rfl
  | cons c t ih => intro a b; simp [ih]

/-- Reading below the appended cell sees the original list. -/
theorem getD_append_lt {α : Type} [Inhabited α] :
    ∀ (l : List α) (a : α) (i : Nat) (d : α), i < l.length →
      (l ++ [a]).getD i d = l.getD i d := by
  intro l
  induction l with
  | nil => intro a i d h; exact absurd h (by simp)
  | cons b t ih =>
      intro a i d h
      cases i with
      | zero => rfl
      | succ j => exact ih a j d (by simpa using h)

/-- The heap-level fixer fold writes only to the freshly allocated cell, and
its content evolves exactly as the value-level fold `fixFold`. -/
theorem heapFixFold_spec :
    ∀ (issues : List ValidationError) (store : List CircuitGraph)
      (g : CircuitGraph) (acc : List String)
      (out : List CircuitGraph × List String),
      heapFixFold store.length (store ++ [g]) acc issues = .ok out →
      ∃ g1 cs1, fixFold (g, acc) issues = .ok (g1, cs1) ∧
        out = (store ++ [g1], cs1) := by
  intro issues
  induction issues with
  | nil =>
      intro store g acc out h
      refine ⟨g, acc, rfl, ?_⟩
      simpa [heapFixFold] using h.symm
  | cons issue rest ih =>
      intro store g acc out h
      unfold heapFixFold at h
      cases hlf : lookupFixer issue.code with
      | none =>
          rw [hlf] at h
          obtain ⟨g1, cs1, hfold, hout⟩ := ih store g acc out h
          refine ⟨g1, cs1, ?_, hout⟩
          unfold fixFold fixStep
          rw [hlf]
          exact hfold
      | some f =>
          rw [hlf] at h
          dsimp only at h
          rw [getD_append_len store g default] at h
          cases hfi : f g issue with
          | exn e => rw [hfi] at h; exact absurd h (by simp)
          | ok p =>
              obtain ⟨ga, csa⟩ := p
              rw [hfi] at h
              dsimp only at h
              rw [set_append_len store g ga] at h
              obtain ⟨g1, cs1, hfold, hout⟩ := ih store ga (acc ++ csa) out h
              refine ⟨g1, cs1, ?_, hout⟩
              show fixFold (g, acc) (issue :: rest) = Py.ok (g1, cs1)
              unfold fixFold fixStep
              rw [hlf]
              dsimp only
              rw [hfi]
              dsimp only
              exact hfold

/-- Claim C9: `correct_circuit` operates on an independent deep copy.  In
the heap model, after the call every pre-existing cell — in particular the
caller's graph at reference `r` — is unchanged, and the returned reference
points to a fresh cell holding exactly the value-level
`correct_circuit` output together with its corrections log. -/
theorem claim_C9_deepcopy_frame (store : List CircuitGraph) (r : Nat)
    (v : ValidationResult) (s1 : List CircuitGraph) (w : Nat)
    (cs : List String) (hr : r < store.length)
    (h : correct_circuit_heap store r v = .ok (s1, w, cs)) :
    (∀ i, i < store.length → s1.getD i default = store.getD i default) ∧
    s1.getD r default = store.getD r default ∧
    w = store.length ∧
    (∃ res, correct_circuit (store.getD r default) v = .ok res ∧
      s1.getD w default = res.corrected_graph ∧ cs = res.corrections) := by
  unfold correct_circuit_heap at h
  dsimp only at h
  cases hh : heapFixFold store.length (store ++ [store.getD r default]) []
      (v.errors ++ v.warnings) with
  | exn e => rw [hh] at h; exact absurd h (by simp)
  | ok p =>
      obtain ⟨sf, csf⟩ := p
      rw [hh] at h
      dsimp only at h
      simp only [Py.ok.injEq, Prod.mk.injEq] at h
      obtain ⟨hs1, hw, hcs⟩ := h
      obtain ⟨g1, cs1, hfold, hout⟩ := heapFixFold_spec
        (v.errors ++ v.warnings) store (store.getD r default) [] (sf, csf) hh
      simp only [Prod.mk.injEq] at hout
      have hs1x : s1 = store ++ [g1] := by rw [← hs1]; exact hout.1
      have hcsx : cs = cs1 := by rw [← hcs]; exact hout.2
      have hwx : w = store.length := hw.symm
      refine ⟨?_, ?_, hwx, ⟨⟨g1, cs1⟩, ?_, ?_, hcsx⟩⟩
      · intro i hi
        rw [hs1x]
        exact getD_append_lt store g1 i default hi
      · rw [hs1x]
        exact getD_append_lt store g1 r default hr
      · unfold correct_circuit
        rw [hfold]
      · rw [hs1x, hwx]
        exact getD_append_len store g1 default

/-- Witness for claim C9 on a one-cell heap holding `c2wGraph`: the caller's
cell is untouched and the fresh cell holds the value-level correction. -/
theorem claim_C9_witness :
    (∀ i, i < [c2wGraph].length → c9heap.getD i default = [c2wGraph].getD i default) ∧
    c9heap.getD 0 default = [c2wGraph].getD 0 default ∧
    1 = [c2wGraph].length ∧
    (∃ res, correct_circuit ([c2wGraph].getD 0 default) c2wVal = .ok res ∧
      c9heap.getD 1 default = res.corrected_graph ∧ c9cs = res.corrections) :=
  claim_C9_deepcopy_frame [c2wGraph] 0 c2wVal c9heap 1 c9cs (by decide)
    (by decide)
